import Mathlib

/-!
# Game of Life on a toroidal grid (`game_of_life.cpp`)

A shallow embedding of the cellular-automaton core of the program:
`initGrid`, `getNeighborCount`, `updateGrid` and `printGrid`, together with the
facts the specification states about them.

Modelling conventions.

* A `std::vector<std::vector<uint8_t>>` is a list of rows, each a list of
  natural numbers (the bytes).  A cell is ALIVE when its byte is nonzero.
* `operator[]` outside the vector is undefined behaviour in C++; here a read
  or write outside the grid makes the operation return `none`, so a theorem
  of the form `f .. = some ..` also says that every access was in range.
* `int` values are mathematical integers, `%` on them is the truncating
  remainder `Int.tmod`.  The `uint8_t` counter is a natural number reduced
  modulo `256` after each increment.
* The source fixes the dimensions as the constants `Rows` and `Columns`.  The
  embedded functions take the two dimensions as their first arguments; the
  program is the instance at `Rows` and `Columns`.
* `std::rand` is a stream of natural numbers together with the number of
  values already drawn.
-/

namespace GameOfLife

/-! ## Data model -/

/-- Number of columns of the configured grid (`constexpr uint16_t Columns{100}`). -/
def Columns : Nat := 100

/-- Number of rows of the configured grid (`constexpr uint16_t Rows{20}`). -/
def Rows : Nat := 20

/-- A grid of cells: the rows of a `std::vector<std::vector<uint8_t>>`. -/
abbrev CellGrid := List (List Nat)

/-- A grid has exactly `nRows` rows of exactly `nCols` cells. -/
def WF (nRows nCols : Nat) (grid : CellGrid) : Prop :=
  grid.length = nRows ∧ ∀ row ∈ grid, row.length = nCols

instance decidableWF (nRows nCols : Nat) (grid : CellGrid) : Decidable (WF nRows nCols grid) := by
  unfold WF
  infer_instance

/-- The read `grid[i][j]` with `int` indices; `none` when an index is outside
the grid (a negative `int` converts to a huge `size_t`). -/
def readCell (grid : CellGrid) (i j : Int) : Option Nat :=
  if 0 ≤ i ∧ 0 ≤ j then
    match grid[i.toNat]? with
    | some row => row[j.toNat]?
    | none => none
  else none

/-- The write `grid[i][j] = v` with `int` indices; `none` when an index is
outside the grid. -/
def writeCell (grid : CellGrid) (i j : Int) (v : Nat) : Option CellGrid :=
  if 0 ≤ i ∧ 0 ≤ j then
    match grid[i.toNat]? with
    | some row =>
      if j.toNat < row.length then some (grid.set i.toNat (row.set j.toNat v)) else none
    | none => none
  else none

/-! ## `getNeighborCount` -/

/-- The address `int destRow = (row + r + Rows) % Rows`. -/
def destRow (nRows : Nat) (row r : Int) : Int := (row + r + (nRows : Int)).tmod (nRows : Int)

/-- The address `int destColumn = (column + c + Columns) % Columns`. -/
def destColumn (nCols : Nat) (column c : Int) : Int :=
  (column + c + (nCols : Int)).tmod (nCols : Int)

/-- The body of the two nested loops of `getNeighborCount` at the offset
`(r, c)`: skip the cell itself, otherwise read the wrapped address and
increment the `uint8_t` counter when the cell is nonzero. -/
def neighborStep (nRows nCols : Nat) (grid : CellGrid) (row column r c : Int)
    (count : Nat) : Option Nat :=
  if r = 0 ∧ c = 0 then some count
  else
    match readCell grid (destRow nRows row r) (destColumn nCols column c) with
    | some v => if v ≠ 0 then some ((count + 1) % 256) else some count
    | none => none

/-- The function `getNeighborCount(grid, row, column)`: both loops run over
`-1, 0, 1`. -/
def getNeighborCount (nRows nCols : Nat) (grid : CellGrid) (row column : Int) : Option Nat :=
  [(-1 : Int), 0, 1].foldlM
    (fun (count : Nat) (r : Int) =>
      [(-1 : Int), 0, 1].foldlM
        (fun (count : Nat) (c : Int) => neighborStep nRows nCols grid row column r c count) count)
    0

/-! ## `updateGrid` -/

/-- The body of the two nested loops of `updateGrid` at the cell `(r, c)`:
reads only `grid`, writes only `newGrid`. -/
def updateCell (nRows nCols : Nat) (grid newGrid : CellGrid) (r c : Int) : Option CellGrid :=
  match getNeighborCount nRows nCols grid r c with
  | none => none
  | some neighborCount =>
    match readCell grid r c with
    | none => none
    | some cell =>
      if cell ≠ 0 then
        if neighborCount < 2 ∨ neighborCount > 3 then writeCell newGrid r c 0
        else writeCell newGrid r c 1
      else
        if neighborCount = 3 then writeCell newGrid r c 1
        else writeCell newGrid r c 0

/-- The function `updateGrid(grid, newGrid)` for two distinct vectors: the
result is the pair of the final `grid` and the final `newGrid`; the closing
assignment `grid = newGrid` makes the first a copy of the second. -/
def updateGrid (nRows nCols : Nat) (grid newGrid : CellGrid) : Option (CellGrid × CellGrid) :=
  match (List.range nRows).foldlM
      (fun (ng : CellGrid) (r : Nat) =>
        (List.range nCols).foldlM
          (fun (ng : CellGrid) (c : Nat) => updateCell nRows nCols grid ng (r : Int) (c : Int)) ng)
      newGrid with
  | some ng => some (ng, ng)
  | none => none

/-! ## `printGrid` -/

/-- The function `printGrid(grid)`: the characters written to standard
output.  The first grid is the module-level global `Grid`, the second is the
argument `grid`; the loop body reads `Grid[r][c]`. -/
def printGrid (nRows nCols : Nat) (Grid grid : CellGrid) : Option (List Char) :=
  (List.range nRows).foldlM
    (fun (out : List Char) (r : Nat) =>
      match (List.range nCols).foldlM
          (fun (out : List Char) (c : Nat) =>
            match readCell Grid (r : Int) (c : Int) with
            | some v => some (out ++ [if v = 0 then '.' else 'X'])
            | none => none)
          out with
      | some out => some (out ++ ['\n'])
      | none => none)
    []

/-! ## `initGrid` -/

/-- The constant `10` of the test `(std::rand() % 100) < 10` in `initGrid`. -/
def aliveThreshold : Nat := 10

/-- The function `initGrid(grid)`.  The pseudo-random source `std::rand` is the
stream `rand` of non-negative values together with the number `calls` of
values already drawn; the constant of the test `(std::rand() % 100) < 10` is
the argument `p`.  The result is the final grid and the new number of calls. -/
def initGrid (nRows nCols p : Nat) (rand : Nat → Nat) (calls : Nat) (grid : CellGrid) :
    Option (CellGrid × Nat) :=
  (List.range nRows).foldlM
    (fun (st : CellGrid × Nat) (r : Nat) =>
      (List.range nCols).foldlM
        (fun (st : CellGrid × Nat) (c : Nat) =>
          match writeCell st.1 (r : Int) (c : Int) (if rand st.2 % 100 < p then 1 else 0) with
          | some g => some (g, st.2 + 1)
          | none => none)
        st)
    (grid, calls)

/-! ## The program state and the calls of `main` -/

/-- The module-level state: the global vectors `Grid` and `NewGrid`, the
number of values drawn from `std::rand`, and the text written so far. -/
structure Machine where
  /-- The global `Grid`. -/
  Grid : CellGrid
  /-- The global `NewGrid`. -/
  NewGrid : CellGrid
  /-- How many values `std::rand` has returned. -/
  randCalls : Nat
  /-- The characters written to standard output. -/
  stdout : List Char

/-- A call of one of the three grid functions on the two global vectors.
The flag of `initGrid` and of `printGrid` selects `NewGrid` instead of `Grid` as
the argument; the flag of `updateGrid` exchanges the two arguments.  The
program itself only makes the calls with the flags `false`. -/
inductive Call where
  | initGrid (onNewGrid : Bool)
  | updateGrid (swapped : Bool)
  | printGrid (onNewGrid : Bool)

/-- The effect of one call on the program state. -/
def Machine.call (rand : Nat → Nat) (m : Machine) : Call → Option Machine
  | Call.initGrid false =>
    match GameOfLife.initGrid Rows Columns aliveThreshold rand m.randCalls m.Grid with
    | some (g, k) => some { m with Grid := g, randCalls := k }
    | none => none
  | Call.initGrid true =>
    match GameOfLife.initGrid Rows Columns aliveThreshold rand m.randCalls m.NewGrid with
    | some (g, k) => some { m with NewGrid := g, randCalls := k }
    | none => none
  | Call.updateGrid false =>
    match GameOfLife.updateGrid Rows Columns m.Grid m.NewGrid with
    | some (g, ng) => some { m with Grid := g, NewGrid := ng }
    | none => none
  | Call.updateGrid true =>
    match GameOfLife.updateGrid Rows Columns m.NewGrid m.Grid with
    | some (g, ng) => some { m with NewGrid := g, Grid := ng }
    | none => none
  | Call.printGrid false =>
    match GameOfLife.printGrid Rows Columns m.Grid m.Grid with
    | some text => some { m with stdout := m.stdout ++ text }
    | none => none
  | Call.printGrid true =>
    match GameOfLife.printGrid Rows Columns m.Grid m.NewGrid with
    | some text => some { m with stdout := m.stdout ++ text }
    | none => none

/-- A sequence of calls, one after the other. -/
def Machine.run (rand : Nat → Nat) (m : Machine) (calls : List Call) : Option Machine :=
  calls.foldlM (fun (m : Machine) (k : Call) => m.call rand k) m

/-! ## Specification-side notions

These follow the wording of the specification and are compared with the
functions above. -/

/-- The offsets `{-1,0,1} × {-1,0,1}` other than `(0,0)`. -/
def neighborOffsets : List (Int × Int) :=
  ([(-1 : Int), 0, 1].product [(-1 : Int), 0, 1]).filter (fun d => d ≠ (0, 0))

/-- The cell `(i, j)` exists and is ALIVE (its byte is nonzero). -/
def isAlive (grid : CellGrid) (i j : Int) : Bool :=
  match readCell grid i j with
  | some v => v != 0
  | none => false

/-- The number of offsets `(dr, dc)` among the eight for which the cell at
`((row + dr) mod nRows, (column + dc) mod nCols)` is ALIVE, with the
mathematical (floor) residue. -/
def countLiveNeighbors (nRows nCols : Nat) (grid : CellGrid) (row column : Int) : Nat :=
  neighborOffsets.countP
    (fun d => isAlive grid ((row + d.1) % (nRows : Int)) ((column + d.2) % (nCols : Int)))

/-- The transition rule B3/S23 as the specification words it: a live cell
with two or three live neighbours survives, a dead cell with exactly three
live neighbours is born, every other cell is dead. -/
def ruleB3S23 (alive : Bool) (n : Nat) : Bool :=
  (alive && (n == 2 || n == 3)) || (!alive && n == 3)

/-- The byte of the next generation at `(r, c)`: `1` when the rule makes the
cell ALIVE, `0` otherwise. -/
def nextCell (nRows nCols : Nat) (grid : CellGrid) (r c : Nat) : Nat :=
  if ruleB3S23 (isAlive grid r c) (countLiveNeighbors nRows nCols grid r c) then 1 else 0

/-- The next generation as a whole grid. -/
def nextGeneration (nRows nCols : Nat) (grid : CellGrid) : CellGrid :=
  (List.range nRows).map (fun r => (List.range nCols).map (fun c => nextCell nRows nCols grid r c))

/-- The character the specification assigns to a cell byte. -/
def cellChar (v : Nat) : Char := if v = 0 then '.' else 'X'

/-- The text the specification assigns to a grid: one line per row, one
character per column, each line followed by a newline. -/
def renderText (grid : CellGrid) : List Char :=
  (grid.map (fun row => row.map cellChar ++ ['\n'])).flatten

/-- The eight cells the specification lists as the neighbours of `(0,0)` on a
grid of `nRows × nCols` cells. -/
def originNeighbors (nRows nCols : Nat) : List (Int × Int) :=
  [((nRows : Int) - 1, (nCols : Int) - 1), ((nRows : Int) - 1, 0), ((nRows : Int) - 1, 1),
   (0, (nCols : Int) - 1), (0, 1),
   (1, (nCols : Int) - 1), (1, 0), (1, 1)]

/-- The grid of the given size whose cell `(r, c)` holds the byte `f r c`. -/
def tabulate (nRows nCols : Nat) (f : Nat → Nat → Nat) : CellGrid :=
  (List.range nRows).map (fun r => (List.range nCols).map (fun c => f r c))

/-- The grid whose ALIVE cells (byte `1`) are those in a row selected by `rowP`
and a column selected by `colP`; every other cell is DEAD (byte `0`). -/
def productGrid (nRows nCols : Nat) (rowP colP : Nat → Bool) : CellGrid :=
  tabulate nRows nCols (fun r c => if rowP r && colP c then 1 else 0)

/-- The grid whose only ALIVE cells are the 2x2 block `(r,c)`, `(r,c+1)`,
`(r+1,c)`, `(r+1,c+1)`, with the indices wrapped modulo the dimensions. -/
def blockGrid (nRows nCols r c : Nat) : CellGrid :=
  productGrid nRows nCols (fun i => decide (i = r ∨ i = (r + 1) % nRows))
    (fun j => decide (j = c ∨ j = (c + 1) % nCols))

/-- The grid whose only ALIVE cell is `(r, c)`. -/
def singleCellGrid (nRows nCols r c : Nat) : CellGrid :=
  productGrid nRows nCols (fun i => decide (i = r)) (fun j => decide (j = c))

/-- The grid whose only ALIVE cells are the 4 consecutive cells
`(r, c)`, `(r, c+1)`, `(r, c+2)`, `(r, c+3)` of row `r`, the columns wrapped
modulo `nCols`. -/
def rowOfFourGrid (nRows nCols r c : Nat) : CellGrid :=
  productGrid nRows nCols (fun i => decide (i = r))
    (fun j => decide (j = c % nCols ∨ j = (c + 1) % nCols ∨ j = (c + 2) % nCols ∨
      j = (c + 3) % nCols))

/-- The normalisation `((index % dimension) + dimension) % dimension` of the
specification, with the truncating remainder. -/
def specWrap (n : Nat) (index : Int) : Int :=
  ((index.tmod (n : Int)) + (n : Int)).tmod (n : Int)

/-- The grid translated on the torus: its cell `(r, c)` is the cell
`((r + a) mod nRows, (c + b) mod nCols)` of `grid`. -/
def shiftGrid (nRows nCols : Nat) (a b : Int) (grid : CellGrid) : CellGrid :=
  tabulate nRows nCols (fun r c =>
    (readCell grid (((r : Int) + a) % (nRows : Int)) (((c : Int) + b) % (nCols : Int))).getD 0)

/-- The grid with every nonzero byte replaced by `1`. -/
def normalize (grid : CellGrid) : CellGrid :=
  grid.map (fun row => row.map (fun v => if v ≠ 0 then 1 else 0))

/-- Every cell of the grid holds exactly `0` or `1`. -/
def Binary (grid : CellGrid) : Prop := ∀ row ∈ grid, ∀ v ∈ row, v = 0 ∨ v = 1

/-- The number of live cells among the eight neighbours of a cell of a
`productGrid`, in scan order: `x1 x2 x3` say whether the rows above, at and
below the cell are selected, `y1 y2 y3` the columns left of, at and right of
it. -/
def liveCount8 (x1 x2 x3 y1 y2 y3 : Bool) : Nat :=
  [x1 && y1, x1 && y2, x1 && y3, x2 && y1, x2 && y3, x3 && y1, x3 && y2, x3 && y3].count true

/-! ## Sample grids -/

/-- The grid of the given size whose cells all hold the byte `v`. -/
def constGrid (nRows nCols v : Nat) : CellGrid := List.replicate nRows (List.replicate nCols v)

/-- The configured grid with every cell DEAD. -/
def deadGrid : CellGrid := constGrid Rows Columns 0

/-- The configured grid with every cell ALIVE. -/
def aliveGrid : CellGrid := constGrid Rows Columns 1

/-- The configured grid whose only ALIVE cell is `(10, 50)`. -/
def farCellGrid : CellGrid := deadGrid.set 10 ((List.replicate Columns 0).set 50 1)

/-! # Lemmas -/

/-! ## Reading and writing cells -/

theorem readCell_natCast (grid : CellGrid) (i j : Nat) :
    readCell grid (i : Int) (j : Int) = (grid[i]?).bind (fun row => row[j]?) := by
  unfold readCell
  have hi : (0 : Int) ≤ (i : Int) := Int.ofNat_nonneg i
  have hj : (0 : Int) ≤ (j : Int) := Int.ofNat_nonneg j
  rw [if_pos ⟨hi, hj⟩, Int.toNat_ofNat, Int.toNat_ofNat]
  cases grid[i]? <;> rfl

theorem readCell_isSome_of_WF {nRows nCols : Nat} {grid : CellGrid} (h : WF nRows nCols grid)
    {i j : Nat} (hi : i < nRows) (hj : j < nCols) :
    ∃ v, readCell grid (i : Int) (j : Int) = some v := by
  obtain ⟨hlen, hrows⟩ := h
  have hi2 : i < grid.length := by omega
  have hrow : (grid[i]).length = nCols := hrows _ (List.getElem_mem hi2)
  have hj2 : j < (grid[i]).length := by omega
  refine ⟨(grid[i])[j], ?_⟩
  rw [readCell_natCast, List.getElem?_eq_getElem hi2]
  simp [List.getElem?_eq_getElem hj2]

theorem writeCell_of_WF {nRows nCols : Nat} {grid : CellGrid} (h : WF nRows nCols grid)
    {i j : Nat} (hi : i < nRows) (hj : j < nCols) (v : Nat) :
    ∃ g, writeCell grid (i : Int) (j : Int) v = some g ∧ WF nRows nCols g ∧
      ∀ a b : Nat, readCell g (a : Int) (b : Int) =
        if a = i ∧ b = j then some v else readCell grid (a : Int) (b : Int) := by
  obtain ⟨hlen, hrows⟩ := h
  have hi2 : i < grid.length := by omega
  have hrow : (grid[i]).length = nCols := hrows _ (List.getElem_mem hi2)
  have hj2 : j < (grid[i]).length := by omega
  refine ⟨grid.set i ((grid[i]).set j v), ?_, ⟨?_, ?_⟩, ?_⟩
  · unfold writeCell
    have h0i : (0 : Int) ≤ (i : Int) := Int.ofNat_nonneg i
    have h0j : (0 : Int) ≤ (j : Int) := Int.ofNat_nonneg j
    rw [if_pos ⟨h0i, h0j⟩, Int.toNat_ofNat, Int.toNat_ofNat, List.getElem?_eq_getElem hi2]
    simp [hj2]
  · simpa using hlen
  · intro row hmem
    obtain ⟨n, hn, rfl⟩ := List.getElem_of_mem hmem
    rw [List.getElem_set]
    split
    · simpa using hrow
    · exact hrows _ (List.getElem_mem _)
  · intro a b
    rw [readCell_natCast, readCell_natCast, List.getElem?_set]
    by_cases hai : i = a
    · subst hai
      simp only [if_pos, hi2, true_and, Option.bind_some, List.getElem?_set]
      by_cases hbj : j = b
      · subst hbj
        simp [hj2]
      · have hbj2 : ¬ b = j := fun e => hbj e.symm
        simp [hbj, hbj2, List.getElem?_eq_getElem hi2]
    · have hai2 : ¬ a = i := fun e => hai e.symm
      simp [hai, hai2]

/-! ## Loops -/

/-- An invariant rule for a `for (k = 0; k < n; ++k)` loop whose body may
fail: when the body preserves the invariant, the loop returns and the
invariant holds at `n`. -/
theorem foldlM_range_invariant {α : Type} (f : α → Nat → Option α) (P : Nat → α → Prop)
    (n : Nat) (a0 : α) (h0 : P 0 a0)
    (hstep : ∀ k a, k < n → P k a → ∃ b, f a k = some b ∧ P (k + 1) b) :
    ∃ a, (List.range n).foldlM f a0 = some a ∧ P n a := by
  induction n with
  | zero => exact ⟨a0, rfl, h0⟩
  | succ m ih =>
    obtain ⟨a, ha, hP⟩ := ih (fun k a hk hp => hstep k a (by omega) hp)
    obtain ⟨b, hb, hQ⟩ := hstep m a (by omega) hP
    refine ⟨b, ?_, hQ⟩
    rw [List.range_succ, List.foldlM_append, ha]
    simp [hb]

/-! ## Wrap-around addressing -/

theorem neighborOffsets_eq :
    neighborOffsets = [(-1, -1), (-1, 0), (-1, 1), (0, -1), (0, 1), (1, -1), (1, 0), (1, 1)] := by
  decide

theorem destRow_eq_emod {n : Nat} {x d : Int} (h : 0 ≤ x + d + (n : Int)) :
    destRow n x d = (x + d) % (n : Int) := by
  unfold destRow
  rw [Int.tmod_eq_emod h (Int.ofNat_nonneg n), Int.add_emod_self]

theorem destColumn_eq_emod {n : Nat} {x d : Int} (h : 0 ≤ x + d + (n : Int)) :
    destColumn n x d = (x + d) % (n : Int) := by
  unfold destColumn
  rw [Int.tmod_eq_emod h (Int.ofNat_nonneg n), Int.add_emod_self]

theorem offset_bounds {d : Int × Int} (h : d ∈ neighborOffsets) :
    (-1 ≤ d.1 ∧ d.1 ≤ 1) ∧ (-1 ≤ d.2 ∧ d.2 ≤ 1) ∧ d ≠ (0, 0) := by
  rw [neighborOffsets_eq] at h
  simp only [List.mem_cons, List.mem_singleton, List.not_mem_nil, or_false] at h
  rcases h with h | h | h | h | h | h | h | h <;> subst h <;> decide

/-- A residue modulo a positive dimension, as a natural-number index. -/
theorem emod_index {n : Nat} (hn : 0 < n) (x : Int) :
    ∃ i : Nat, i < n ∧ x % (n : Int) = (i : Int) := by
  have h0 : 0 ≤ x % (n : Int) := Int.emod_nonneg _ (by omega)
  have h1 : x % (n : Int) < (n : Int) := Int.emod_lt_of_pos _ (by omega)
  refine ⟨(x % (n : Int)).toNat, ?_, ?_⟩
  · omega
  · omega

/-! ## `getNeighborCount` counts the live neighbours -/

theorem isAlive_of_read {grid : CellGrid} {i j : Int} {v : Nat} (h : readCell grid i j = some v) :
    isAlive grid i j = decide (v ≠ 0) := by
  unfold isAlive
  rw [h]
  by_cases hv : v = 0 <;> simp [hv]

theorem getNeighborCount_flat (nRows nCols : Nat) (grid : CellGrid) (row column : Int) :
    getNeighborCount nRows nCols grid row column =
      neighborOffsets.foldlM
        (fun count d => neighborStep nRows nCols grid row column d.1 d.2 count) 0 := by
  rw [neighborOffsets_eq]
  simp [getNeighborCount, List.foldlM, neighborStep, Option.bind_assoc]

theorem neighborStep_of_read {nRows nCols : Nat} {grid : CellGrid} {row column : Int}
    {d : Int × Int} (hd : d ≠ (0, 0)) {v : Nat}
    (hv : readCell grid (destRow nRows row d.1) (destColumn nCols column d.2) = some v)
    (k : Nat) :
    neighborStep nRows nCols grid row column d.1 d.2 k =
      some (if v ≠ 0 then (k + 1) % 256 else k) := by
  have hd2 : ¬ (d.1 = 0 ∧ d.2 = 0) := fun h => hd (Prod.ext h.1 h.2)
  unfold neighborStep
  rw [if_neg hd2, hv]
  by_cases hz : v = 0 <;> simp [hz]

theorem foldlM_neighborStep (nRows nCols : Nat) (grid : CellGrid) (row column : Int)
    (ds : List (Int × Int)) (hne : ∀ d ∈ ds, d ≠ (0, 0))
    (hread : ∀ d ∈ ds, ∃ v,
      readCell grid (destRow nRows row d.1) (destColumn nCols column d.2) = some v)
    (k : Nat) (hk : k + ds.length ≤ 255) :
    ds.foldlM (fun count d => neighborStep nRows nCols grid row column d.1 d.2 count) k =
      some (k + ds.countP
        (fun d => isAlive grid (destRow nRows row d.1) (destColumn nCols column d.2))) := by
  induction ds generalizing k with
  | nil => simp
  | cons d ds ih =>
    obtain ⟨v, hv⟩ := hread d (List.mem_cons_self _ _)
    have hd : d ≠ (0, 0) := hne d (List.mem_cons_self _ _)
    have hlen : (d :: ds).length = ds.length + 1 := rfl
    have ih2 := ih (fun e he => hne e (List.mem_cons_of_mem _ he))
      (fun e he => hread e (List.mem_cons_of_mem _ he))
    rw [List.foldlM_cons, List.countP_cons, isAlive_of_read hv, neighborStep_of_read hd hv]
    by_cases hz : v = 0
    · simp only [hz, ne_eq, not_true_eq_false, if_false, decide_False, Option.bind_eq_bind,
        Option.some_bind]
      rw [ih2 k (by omega)]
      simp
    · simp only [hz, ne_eq, not_false_eq_true, if_true, decide_True, Option.bind_eq_bind,
        Option.some_bind]
      rw [Nat.mod_eq_of_lt (by omega : k + 1 < 256), ih2 (k + 1) (by omega)]
      congr 1
      omega

/-- On a well-formed grid and an in-range cell, `getNeighborCount` returns,
and returns the number of live cells among the eight wrapped neighbours. -/
theorem getNeighborCount_eq {nRows nCols : Nat} {grid : CellGrid} (h : WF nRows nCols grid)
    {row column : Nat} (hr : row < nRows) (hc : column < nCols) :
    getNeighborCount nRows nCols grid (row : Int) (column : Int) =
      some (countLiveNeighbors nRows nCols grid (row : Int) (column : Int)) := by
  have key : ∀ d ∈ neighborOffsets,
      destRow nRows (row : Int) d.1 = ((row : Int) + d.1) % (nRows : Int) ∧
      destColumn nCols (column : Int) d.2 = ((column : Int) + d.2) % (nCols : Int) := by
    intro d hd
    obtain ⟨h1, h2, _⟩ := offset_bounds hd
    exact ⟨destRow_eq_emod (by omega), destColumn_eq_emod (by omega)⟩
  rw [getNeighborCount_flat, foldlM_neighborStep nRows nCols grid row column neighborOffsets
    (fun d hd => (offset_bounds hd).2.2) ?_ 0 (by rw [neighborOffsets_eq]; decide)]
  · rw [Nat.zero_add]
    unfold countLiveNeighbors
    congr 1
    apply List.countP_congr
    intro d hd
    rw [(key d hd).1, (key d hd).2]
  · intro d hd
    rw [(key d hd).1, (key d hd).2]
    obtain ⟨i, hi, hie⟩ := emod_index (by omega : 0 < nRows) ((row : Int) + d.1)
    obtain ⟨j, hj, hje⟩ := emod_index (by omega : 0 < nCols) ((column : Int) + d.2)
    rw [hie, hje]
    exact readCell_isSome_of_WF h hi hj

theorem countLiveNeighbors_le (nRows nCols : Nat) (grid : CellGrid) (row column : Int) :
    countLiveNeighbors nRows nCols grid row column ≤ 8 := by
  unfold countLiveNeighbors
  refine le_trans (List.countP_le_length _) ?_
  rw [neighborOffsets_eq]
  decide

theorem tmod_of_neg {x : Int} (hx : x < 0) (n : Nat) :
    x.tmod (n : Int) = -((-x) % (n : Int)) := by
  obtain ⟨m, rfl⟩ : ∃ m : Nat, x = Int.negSucc m := by
    cases x with
    | ofNat k => exact absurd hx (by simp)
    | negSucc m => exact ⟨m, rfl⟩
  have h1 : (Int.negSucc m).tmod (n : Int) = -((((m + 1) % n : Nat)) : Int) := rfl
  have h2 : -(Int.negSucc m) = ((m + 1 : Nat) : Int) := rfl
  rw [h1, h2]
  simp

theorem destRow_cases (n : Nat) (x d : Int) :
    (0 ≤ x + d + (n : Int) → destRow n x d = (x + d + (n : Int)) % (n : Int)) ∧
    (x + d + (n : Int) < 0 → destRow n x d = -((-(x + d + (n : Int))) % (n : Int))) :=
  ⟨fun h => Int.tmod_eq_emod h (Int.ofNat_nonneg n), fun h => tmod_of_neg h n⟩

theorem destColumn_cases (n : Nat) (x d : Int) :
    (0 ≤ x + d + (n : Int) → destColumn n x d = (x + d + (n : Int)) % (n : Int)) ∧
    (x + d + (n : Int) < 0 → destColumn n x d = -((-(x + d + (n : Int))) % (n : Int))) :=
  ⟨fun h => Int.tmod_eq_emod h (Int.ofNat_nonneg n), fun h => tmod_of_neg h n⟩

/-! ## The next generation -/

theorem WF_nextGeneration (nRows nCols : Nat) (grid : CellGrid) :
    WF nRows nCols (nextGeneration nRows nCols grid) := by
  refine ⟨by simp [nextGeneration], ?_⟩
  intro row hrow
  simp only [nextGeneration, List.mem_map, List.mem_range] at hrow
  obtain ⟨r, _, rfl⟩ := hrow
  simp

theorem readCell_nextGeneration (nRows nCols : Nat) (grid : CellGrid) {r c : Nat}
    (hr : r < nRows) (hc : c < nCols) :
    readCell (nextGeneration nRows nCols grid) (r : Int) (c : Int) =
      some (nextCell nRows nCols grid r c) := by
  rw [readCell_natCast]
  simp [nextGeneration, List.getElem?_map, List.getElem?_range, hr, hc]

/-- Two well-formed grids with the same cells are the same grid. -/
theorem grid_ext {nRows nCols : Nat} {g1 g2 : CellGrid} (h1 : WF nRows nCols g1)
    (h2 : WF nRows nCols g2)
    (h : ∀ r c : Nat, r < nRows → c < nCols →
      readCell g1 (r : Int) (c : Int) = readCell g2 (r : Int) (c : Int)) : g1 = g2 := by
  obtain ⟨hl1, hr1⟩ := h1
  obtain ⟨hl2, hr2⟩ := h2
  apply List.ext_getElem (by omega)
  intro r hra hrb
  have hlen1 : (g1[r]).length = nCols := hr1 _ (List.getElem_mem hra)
  have hlen2 : (g2[r]).length = nCols := hr2 _ (List.getElem_mem hrb)
  apply List.ext_getElem (by omega)
  intro c hca hcb
  have hrc := h r c (by omega) (by omega)
  rw [readCell_natCast, readCell_natCast, List.getElem?_eq_getElem hra,
    List.getElem?_eq_getElem hrb] at hrc
  simpa [List.getElem?_eq_getElem hca, List.getElem?_eq_getElem hcb] using hrc

/-- The value `updateGrid` writes at a cell is the byte `nextCell`. -/
theorem updateCell_eq {nRows nCols : Nat} {grid : CellGrid} (h : WF nRows nCols grid)
    (newGrid : CellGrid) {r c : Nat} (hr : r < nRows) (hc : c < nCols) :
    updateCell nRows nCols grid newGrid (r : Int) (c : Int) =
      writeCell newGrid (r : Int) (c : Int) (nextCell nRows nCols grid r c) := by
  obtain ⟨v, hv⟩ := readCell_isSome_of_WF h hr hc
  have hle := countLiveNeighbors_le nRows nCols grid (r : Int) (c : Int)
  unfold updateCell nextCell ruleB3S23
  rw [getNeighborCount_eq h hr hc, isAlive_of_read hv]
  simp only [hv]
  generalize countLiveNeighbors nRows nCols grid (r : Int) (c : Int) = n at hle
  by_cases hz : v = 0
  · by_cases h3 : n = 3 <;> simp [hz, h3]
  · by_cases h2 : n = 2
    · simp [hz, h2]
    · by_cases h3 : n = 3
      · simp [hz, h3]
      · have : n < 2 ∨ n > 3 := by omega
        simp [hz, h2, h3, this]

/-- The inner loop of `updateGrid` over the columns of row `r`. -/
theorem updateGrid_row {nRows nCols : Nat} {grid : CellGrid} (h : WF nRows nCols grid)
    {ng0 : CellGrid} (h0 : WF nRows nCols ng0) {r : Nat} (hr : r < nRows) :
    ∃ ng, (List.range nCols).foldlM
        (fun (ng : CellGrid) (c : Nat) => updateCell nRows nCols grid ng (r : Int) (c : Int)) ng0 = some ng ∧
      WF nRows nCols ng ∧
      ∀ a b : Nat, readCell ng (a : Int) (b : Int) =
        if a = r ∧ b < nCols then some (nextCell nRows nCols grid r b)
        else readCell ng0 (a : Int) (b : Int) := by
  apply foldlM_range_invariant
    (fun (ng : CellGrid) (c : Nat) => updateCell nRows nCols grid ng (r : Int) (c : Int))
    (fun k ng => WF nRows nCols ng ∧
      ∀ a b : Nat, readCell ng (a : Int) (b : Int) =
        if a = r ∧ b < k then some (nextCell nRows nCols grid r b)
        else readCell ng0 (a : Int) (b : Int))
  · exact ⟨h0, fun a b => by simp⟩
  · intro k ng hk ⟨hwf, hcells⟩
    obtain ⟨ng2, hw, hwf2, hread⟩ :=
      writeCell_of_WF hwf hr hk (nextCell nRows nCols grid r k)
    refine ⟨ng2, by rw [updateCell_eq h ng hr hk, hw], hwf2, ?_⟩
    intro a b
    rw [hread a b, hcells a b]
    by_cases ha : a = r
    · by_cases hb : b = k
      · subst ha; subst hb; simp
      · have e : (b < k + 1) = (b < k) := by
          apply propext; omega
        simp [ha, hb, e]
    · simp [ha]

/-- On well-formed grids `updateGrid` returns, and both resulting grids are
the next generation of the grid it was given. -/
theorem updateGrid_eq {nRows nCols : Nat} {grid newGrid : CellGrid}
    (h : WF nRows nCols grid) (hn : WF nRows nCols newGrid) :
    updateGrid nRows nCols grid newGrid =
      some (nextGeneration nRows nCols grid, nextGeneration nRows nCols grid) := by
  obtain ⟨ng, hfold, hwf, hcells⟩ := foldlM_range_invariant
    (fun (ng : CellGrid) (r : Nat) => (List.range nCols).foldlM
      (fun (ng : CellGrid) (c : Nat) => updateCell nRows nCols grid ng (r : Int) (c : Int)) ng)
    (fun k ng => WF nRows nCols ng ∧
      ∀ a b : Nat, b < nCols → readCell ng (a : Int) (b : Int) =
        if a < k then some (nextCell nRows nCols grid a b)
        else readCell newGrid (a : Int) (b : Int))
    nRows newGrid ⟨hn, fun a b _ => by simp⟩
    (by
      intro k ng hk ⟨hwf, hcells⟩
      obtain ⟨ng2, hrun, hwf2, hread⟩ := updateGrid_row h hwf hk
      refine ⟨ng2, hrun, hwf2, ?_⟩
      intro a b hb
      rw [hread a b, hcells a b hb]
      by_cases ha : a = k
      · subst ha; simp [hb]
      · have e : (a < k + 1) = (a < k) := by
          apply propext; omega
        simp [ha, e])
  have hng : ng = nextGeneration nRows nCols grid := by
    apply grid_ext hwf (WF_nextGeneration nRows nCols grid)
    intro r c hr hc
    rw [hcells r c hc, if_pos hr, readCell_nextGeneration nRows nCols grid hr hc]
  unfold updateGrid
  rw [hfold, hng]

theorem WF_constGrid (nRows nCols v : Nat) : WF nRows nCols (constGrid nRows nCols v) := by
  refine ⟨by simp [constGrid], ?_⟩
  intro row hrow
  obtain ⟨_, rfl⟩ := List.mem_replicate.mp hrow
  simp

/-! ## `printGrid` -/

theorem readCell_getElem {grid : CellGrid} {r c : Nat} (hr : r < grid.length)
    (hc : c < (grid[r]).length) : readCell grid (r : Int) (c : Int) = some ((grid[r])[c]) := by
  rw [readCell_natCast, List.getElem?_eq_getElem hr]
  simp [List.getElem?_eq_getElem hc]

/-- The inner loop of `printGrid` appends the characters of row `r` of the
global grid. -/
theorem printGrid_row {nCols : Nat} {Grid : CellGrid} {r : Nat} (hr : r < Grid.length)
    (hlen : (Grid[r]).length = nCols) (out0 : List Char) :
    (List.range nCols).foldlM
      (fun (out : List Char) (c : Nat) =>
        match readCell Grid (r : Int) (c : Int) with
        | some v => some (out ++ [if v = 0 then '.' else 'X'])
        | none => none) out0 = some (out0 ++ (Grid[r]).map cellChar) := by
  obtain ⟨out, hrun, hout⟩ := foldlM_range_invariant
    (fun (out : List Char) (c : Nat) =>
      match readCell Grid (r : Int) (c : Int) with
      | some v => some (out ++ [if v = 0 then '.' else 'X'])
      | none => none)
    (fun k out => out = out0 ++ ((Grid[r]).take k).map cellChar)
    nCols out0 (by simp)
    (by
      intro k out hk hout
      have hk2 : k < (Grid[r]).length := by omega
      refine ⟨out ++ [cellChar ((Grid[r])[k])], ?_, ?_⟩
      · simp only [readCell_getElem hr hk2]
        rfl
      · show out ++ [cellChar ((Grid[r])[k])] = out0 ++ ((Grid[r]).take (k + 1)).map cellChar
        rw [hout, List.take_succ, List.getElem?_eq_getElem hk2]
        simp only [Option.toList, List.map_append, List.map_cons, List.map_nil,
          List.append_assoc])
  rw [hrun, hout, ← hlen, List.take_length]

/-- On a well-formed global grid `printGrid` returns, and emits the text of
the global grid, whatever its argument is. -/
theorem printGrid_eq {nRows nCols : Nat} {Grid : CellGrid} (h : WF nRows nCols Grid)
    (grid : CellGrid) : printGrid nRows nCols Grid grid = some (renderText Grid) := by
  obtain ⟨hlen, hrows⟩ := h
  obtain ⟨out, hrun, hout⟩ := foldlM_range_invariant
    (fun (out : List Char) (r : Nat) =>
      match (List.range nCols).foldlM
          (fun (out : List Char) (c : Nat) =>
            match readCell Grid (r : Int) (c : Int) with
            | some v => some (out ++ [if v = 0 then '.' else 'X'])
            | none => none)
          out with
      | some out => some (out ++ ['\n'])
      | none => none)
    (fun k out => out = renderText (Grid.take k))
    nRows [] (by simp [renderText])
    (by
      intro k out hk hout
      have hk2 : k < Grid.length := by omega
      have hrow : (Grid[k]).length = nCols := hrows _ (List.getElem_mem hk2)
      refine ⟨out ++ (Grid[k]).map cellChar ++ ['\n'], ?_, ?_⟩
      · simp only [printGrid_row hk2 hrow out]
      · show out ++ (Grid[k]).map cellChar ++ ['\n'] = renderText (Grid.take (k + 1))
        rw [hout, List.take_succ, List.getElem?_eq_getElem hk2]
        simp only [renderText, Option.toList, List.map_append, List.map_cons, List.map_nil,
          List.flatten_append, List.flatten_cons, List.flatten_nil, List.append_nil,
          List.append_assoc])
  unfold printGrid
  rw [hrun, hout, ← hlen, List.take_length]

theorem renderText_constGrid (nRows nCols v : Nat) :
    renderText (constGrid nRows nCols v) =
      (List.replicate nRows (List.replicate nCols (cellChar v) ++ ['\n'])).flatten := by
  simp [renderText, constGrid]

/-! ## Consequences for single cells -/

/-- Flipping the predicate at one element of a duplicate-free list changes the
count by exactly one. -/
theorem countP_flip_one {α : Type} (l : List α) (hnd : l.Nodup) (f f' : α → Bool) (p : α)
    (hp : p ∈ l) (hflip : f' p = !f p) (hrest : ∀ q ∈ l, q ≠ p → f' q = f q) :
    l.countP f' + (if f p = true then 1 else 0) = l.countP f + (if f p = true then 0 else 1) := by
  induction l with
  | nil => exact absurd hp (List.not_mem_nil p)
  | cons a l ih =>
    rw [List.nodup_cons] at hnd
    rw [List.countP_cons, List.countP_cons]
    by_cases hap : a = p
    · subst hap
      have hsame : l.countP f' = l.countP f := by
        apply List.countP_congr
        intro q hq
        have hne : q ≠ a := fun e => hnd.1 (e ▸ hq)
        rw [hrest q (List.mem_cons_of_mem _ hq) hne]
      rw [hsame, hflip]
      cases f a <;> simp
    · have hp2 : p ∈ l := by
        rcases List.mem_cons.mp hp with e | e
        · exact absurd e.symm hap
        · exact e
      have ih2 := ih hnd.2 hp2 (fun q hq hne => hrest q (List.mem_cons_of_mem _ hq) hne)
      rw [hrest a (List.mem_cons_self _ _) hap]
      omega

theorem originNeighbors_eq_map :
    originNeighbors Rows Columns =
      neighborOffsets.map (fun d => ((((0 : Nat) : Int) + d.1) % (Rows : Int),
        (((0 : Nat) : Int) + d.2) % (Columns : Int))) := by
  decide

theorem countLiveNeighbors_origin (g : CellGrid) :
    countLiveNeighbors Rows Columns g ((0 : Nat) : Int) ((0 : Nat) : Int) =
      (originNeighbors Rows Columns).countP (fun p => isAlive g p.1 p.2) := by
  rw [originNeighbors_eq_map, List.countP_map]
  rfl

theorem nextCell_congr {nRows nCols : Nat} {g1 g2 : CellGrid} {r c : Nat}
    (hself : isAlive g1 (r : Int) (c : Int) = isAlive g2 (r : Int) (c : Int))
    (hcount : countLiveNeighbors nRows nCols g1 (r : Int) (c : Int) =
      countLiveNeighbors nRows nCols g2 (r : Int) (c : Int)) :
    nextCell nRows nCols g1 r c = nextCell nRows nCols g2 r c := by
  unfold nextCell
  rw [hself, hcount]

/-! ## Tabulated grids -/

theorem WF_tabulate (nRows nCols : Nat) (f : Nat → Nat → Nat) :
    WF nRows nCols (tabulate nRows nCols f) := by
  refine ⟨by simp [tabulate], ?_⟩
  intro row hrow
  simp only [tabulate, List.mem_map, List.mem_range] at hrow
  obtain ⟨r, _, rfl⟩ := hrow
  simp

theorem readCell_tabulate (nRows nCols : Nat) (f : Nat → Nat → Nat) {r c : Nat}
    (hr : r < nRows) (hc : c < nCols) :
    readCell (tabulate nRows nCols f) (r : Int) (c : Int) = some (f r c) := by
  rw [readCell_natCast]
  simp [tabulate, List.getElem?_map, List.getElem?_range, hr, hc]

theorem isAlive_tabulate (nRows nCols : Nat) (f : Nat → Nat → Nat) {r c : Nat}
    (hr : r < nRows) (hc : c < nCols) :
    isAlive (tabulate nRows nCols f) (r : Int) (c : Int) = decide (f r c ≠ 0) :=
  isAlive_of_read (readCell_tabulate nRows nCols f hr hc)

theorem nextGeneration_eq_tabulate (nRows nCols : Nat) (grid : CellGrid) :
    nextGeneration nRows nCols grid = tabulate nRows nCols (nextCell nRows nCols grid) := rfl

/-- A well-formed grid is the tabulation of its cells. -/
theorem eq_tabulate_of_cells {nRows nCols : Nat} {grid : CellGrid} (h : WF nRows nCols grid)
    (f : Nat → Nat → Nat)
    (hf : ∀ r c : Nat, r < nRows → c < nCols → readCell grid (r : Int) (c : Int) = some (f r c)) :
    grid = tabulate nRows nCols f := by
  apply grid_ext h (WF_tabulate nRows nCols f)
  intro r c hr hc
  rw [hf r c hr hc, readCell_tabulate nRows nCols f hr hc]

theorem tabulate_congr (nRows nCols : Nat) {f f2 : Nat → Nat → Nat}
    (h : ∀ r c : Nat, r < nRows → c < nCols → f r c = f2 r c) :
    tabulate nRows nCols f = tabulate nRows nCols f2 := by
  apply eq_tabulate_of_cells (WF_tabulate nRows nCols f)
  intro r c hr hc
  rw [readCell_tabulate nRows nCols f hr hc, h r c hr hc]

/-! ## `initGrid` -/

/-- The inner loop of `initGrid` over the columns of row `r`. -/
theorem initGrid_row {nRows nCols : Nat} (p : Nat) (rand : Nat → Nat) {st0 : CellGrid × Nat}
    (h0 : WF nRows nCols st0.1) {r : Nat} (hr : r < nRows) :
    ∃ st, (List.range nCols).foldlM
        (fun (st : CellGrid × Nat) (c : Nat) =>
          match writeCell st.1 (r : Int) (c : Int) (if rand st.2 % 100 < p then 1 else 0) with
          | some g => some (g, st.2 + 1)
          | none => none) st0 = some st ∧
      WF nRows nCols st.1 ∧ st.2 = st0.2 + nCols ∧
      ∀ a b : Nat, readCell st.1 (a : Int) (b : Int) =
        if a = r ∧ b < nCols then some (if rand (st0.2 + b) % 100 < p then 1 else 0)
        else readCell st0.1 (a : Int) (b : Int) := by
  apply foldlM_range_invariant
    (fun (st : CellGrid × Nat) (c : Nat) =>
      match writeCell st.1 (r : Int) (c : Int) (if rand st.2 % 100 < p then 1 else 0) with
      | some g => some (g, st.2 + 1)
      | none => none)
    (fun k st => WF nRows nCols st.1 ∧ st.2 = st0.2 + k ∧
      ∀ a b : Nat, readCell st.1 (a : Int) (b : Int) =
        if a = r ∧ b < k then some (if rand (st0.2 + b) % 100 < p then 1 else 0)
        else readCell st0.1 (a : Int) (b : Int))
  · exact ⟨h0, rfl, fun a b => by simp⟩
  · intro k st hk ⟨hwf, hcnt, hcells⟩
    obtain ⟨g2, hw, hwf2, hread⟩ :=
      writeCell_of_WF hwf hr hk (if rand st.2 % 100 < p then 1 else 0)
    refine ⟨(g2, st.2 + 1), by simp only [hw], hwf2, by show st.2 + 1 = st0.2 + (k + 1); omega, ?_⟩
    intro a b
    show readCell g2 (a : Int) (b : Int) = _
    rw [hread a b, hcells a b, hcnt]
    by_cases ha : a = r
    · by_cases hb : b = k
      · subst ha; subst hb; simp
      · have e : (b < k + 1) = (b < k) := by
          apply propext; omega
        simp [ha, hb, e]
    · simp [ha]

/-- On a well-formed grid `initGrid` returns: it draws one value per cell in
row-major order and leaves in cell `(r, c)` the outcome of the test on the
value drawn for it. -/
theorem initGrid_eq {nRows nCols : Nat} (p : Nat) (rand : Nat → Nat) (calls : Nat)
    {grid : CellGrid} (h : WF nRows nCols grid) :
    initGrid nRows nCols p rand calls grid =
      some (tabulate nRows nCols
        (fun r c => if rand (calls + r * nCols + c) % 100 < p then 1 else 0),
        calls + nRows * nCols) := by
  obtain ⟨st, hfold, hwf, hcnt, hcells⟩ := foldlM_range_invariant
    (fun (st : CellGrid × Nat) (r : Nat) =>
      (List.range nCols).foldlM
        (fun (st : CellGrid × Nat) (c : Nat) =>
          match writeCell st.1 (r : Int) (c : Int) (if rand st.2 % 100 < p then 1 else 0) with
          | some g => some (g, st.2 + 1)
          | none => none)
        st)
    (fun k st => WF nRows nCols st.1 ∧ st.2 = calls + k * nCols ∧
      ∀ a b : Nat, b < nCols → readCell st.1 (a : Int) (b : Int) =
        if a < k then some (if rand (calls + a * nCols + b) % 100 < p then 1 else 0)
        else readCell grid (a : Int) (b : Int))
    nRows (grid, calls) ⟨h, by simp, fun a b _ => by simp⟩
    (by
      intro k st hk ⟨hwf, hcnt, hcells⟩
      obtain ⟨st2, hrun, hwf2, hcnt2, hread⟩ := initGrid_row p rand hwf hk
      refine ⟨st2, hrun, hwf2, ?_, ?_⟩
      · show st2.2 = calls + (k + 1) * nCols
        rw [hcnt2, hcnt, Nat.add_mul]
        omega
      · intro a b hb
        show readCell st2.1 (a : Int) (b : Int) = _
        rw [hread a b, hcells a b hb, hcnt]
        by_cases ha : a = k
        · subst ha; simp [hb]
        · have e : (a < k + 1) = (a < k) := by
            apply propext; omega
          simp [ha, e])
  have hgrid : st.1 = tabulate nRows nCols
      (fun r c => if rand (calls + r * nCols + c) % 100 < p then 1 else 0) := by
    apply eq_tabulate_of_cells hwf
    intro r c hr hc
    rw [hcells r c hc, if_pos hr]
  unfold initGrid
  rw [hfold]
  congr 1
  exact Prod.ext hgrid (by rw [hcnt])

/-! ## Neighbours on a torus of arbitrary size -/

theorem emod_pred {n i : Nat} (hi : i < n) :
    ((i : Int) + -1) % (n : Int) = (((i + n - 1) % n : Nat) : Int) := by
  have h : ((i + n - 1 : Nat) : Int) = (i : Int) + -1 + (n : Int) := by omega
  rw [Int.natCast_mod, h, Int.add_emod_self]

theorem emod_succ (n i : Nat) :
    ((i : Int) + 1) % (n : Int) = (((i + 1) % n : Nat) : Int) := by
  rw [Int.natCast_mod]
  rfl

theorem emod_self_index {n i : Nat} (hi : i < n) : ((i : Int) + 0) % (n : Int) = (i : Int) := by
  rw [Int.add_zero]
  exact Int.emod_eq_of_lt (Int.ofNat_nonneg i) (by omega)

theorem succ_mod_eq {n i : Nat} (hi : i < n) : (i + 1) % n = if i + 1 = n then 0 else i + 1 := by
  split
  · next h => rw [h, Nat.mod_self]
  · next h => exact Nat.mod_eq_of_lt (by omega)

theorem pred_mod_eq {n i : Nat} (hi : i < n) :
    (i + n - 1) % n = if i = 0 then n - 1 else i - 1 := by
  split
  · next h => subst h; rw [Nat.zero_add]; exact Nat.mod_eq_of_lt (by omega)
  · next h =>
    have e : i + n - 1 = (i - 1) + n := by omega
    rw [e, Nat.add_mod_right]
    exact Nat.mod_eq_of_lt (by omega)

theorem isAlive_productGrid (nRows nCols : Nat) (rowP colP : Nat → Bool) {r c : Nat}
    (hr : r < nRows) (hc : c < nCols) :
    isAlive (productGrid nRows nCols rowP colP) (r : Int) (c : Int) = (rowP r && colP c) := by
  unfold productGrid
  rw [isAlive_tabulate nRows nCols _ hr hc]
  cases rowP r <;> cases colP c <;> rfl

/-- The live-neighbour count on a `productGrid` in terms of the selected rows
and columns around the cell. -/
theorem countLiveNeighbors_productGrid (nRows nCols : Nat) (rowP colP : Nat → Bool) {r c : Nat}
    (hr : r < nRows) (hc : c < nCols) :
    countLiveNeighbors nRows nCols (productGrid nRows nCols rowP colP) (r : Int) (c : Int) =
      liveCount8 (rowP ((r + nRows - 1) % nRows)) (rowP r) (rowP ((r + 1) % nRows))
        (colP ((c + nCols - 1) % nCols)) (colP c) (colP ((c + 1) % nCols)) := by
  have hr1 : (r + nRows - 1) % nRows < nRows := Nat.mod_lt _ (by omega)
  have hr3 : (r + 1) % nRows < nRows := Nat.mod_lt _ (by omega)
  have hc1 : (c + nCols - 1) % nCols < nCols := Nat.mod_lt _ (by omega)
  have hc3 : (c + 1) % nCols < nCols := Nat.mod_lt _ (by omega)
  unfold countLiveNeighbors
  rw [neighborOffsets_eq]
  simp only [List.countP_cons, List.countP_nil, emod_pred hr, emod_pred hc, emod_succ,
    emod_self_index hr, emod_self_index hc,
    isAlive_productGrid nRows nCols rowP colP hr1 hc1,
    isAlive_productGrid nRows nCols rowP colP hr1 hc,
    isAlive_productGrid nRows nCols rowP colP hr1 hc3,
    isAlive_productGrid nRows nCols rowP colP hr hc1,
    isAlive_productGrid nRows nCols rowP colP hr hc3,
    isAlive_productGrid nRows nCols rowP colP hr3 hc1,
    isAlive_productGrid nRows nCols rowP colP hr3 hc,
    isAlive_productGrid nRows nCols rowP colP hr3 hc3]
  generalize rowP ((r + nRows - 1) % nRows) = x1
  generalize rowP r = x2
  generalize rowP ((r + 1) % nRows) = x3
  generalize colP ((c + nCols - 1) % nCols) = y1
  generalize colP c = y2
  generalize colP ((c + 1) % nCols) = y3
  cases x1 <;> cases x2 <;> cases x3 <;> cases y1 <;> cases y2 <;> cases y3 <;> rfl

/-- The next generation of a `productGrid`, cell by cell. -/
theorem nextCell_productGrid (nRows nCols : Nat) (rowP colP : Nat → Bool) {r c : Nat}
    (hr : r < nRows) (hc : c < nCols) :
    nextCell nRows nCols (productGrid nRows nCols rowP colP) r c =
      if ruleB3S23 (rowP r && colP c)
        (liveCount8 (rowP ((r + nRows - 1) % nRows)) (rowP r) (rowP ((r + 1) % nRows))
          (colP ((c + nCols - 1) % nCols)) (colP c) (colP ((c + 1) % nCols))) = true
      then 1 else 0 := by
  unfold nextCell
  rw [isAlive_productGrid nRows nCols rowP colP hr hc,
    countLiveNeighbors_productGrid nRows nCols rowP colP hr hc]

/-- A cell in a selected row and column with exactly one more selected row
and one more selected column around it survives; no other cell is born when a
selected row (column) always has exactly one selected neighbour. -/
theorem rule_block : ∀ x1 x2 x3 y1 y2 y3 : Bool,
    (x2 = true → x1 ≠ x3) → (y2 = true → y1 ≠ y3) →
    ruleB3S23 (x2 && y2) (liveCount8 x1 x2 x3 y1 y2 y3) = (x2 && y2) := by
  decide

/-- When at most one of the three rows and at most one of the three columns
around a cell is selected, the cell is dead in the next generation. -/
theorem rule_single : ∀ x1 x2 x3 y1 y2 y3 : Bool,
    ((x1 && x2) = false ∧ (x1 && x3) = false ∧ (x2 && x3) = false) →
    ((y1 && y2) = false ∧ (y1 && y3) = false ∧ (y2 && y3) = false) →
    ruleB3S23 (x2 && y2) (liveCount8 x1 x2 x3 y1 y2 y3) = false := by
  decide

theorem succ_mod_spec {n i : Nat} (hi : i < n) :
    (i + 1 = n ∧ (i + 1) % n = 0) ∨ (i + 1 ≠ n ∧ (i + 1) % n = i + 1) := by
  rw [succ_mod_eq hi]
  split_ifs <;> omega

theorem pred_mod_spec {n i : Nat} (hi : i < n) :
    (i = 0 ∧ (i + n - 1) % n + 1 = n) ∨ (i ≠ 0 ∧ (i + n - 1) % n + 1 = i) := by
  rw [pred_mod_eq hi]
  split_ifs <;> omega

/-- Around a row of a two-row band on a torus with at least three rows,
exactly one of the two adjacent rows belongs to the band. -/
theorem band_neighbors_iff {n : Nat} (hn : 3 ≤ n) {r i : Nat} (hr : r < n) (hi : i < n)
    (h : i = r ∨ i = (r + 1) % n) :
    ((i + n - 1) % n = r ∨ (i + n - 1) % n = (r + 1) % n) ↔
      ¬ ((i + 1) % n = r ∨ (i + 1) % n = (r + 1) % n) := by
  have h1 := succ_mod_spec hr
  have h2 := succ_mod_spec hi
  have h3 := pred_mod_spec hi
  generalize (r + 1) % n = s at h h1 ⊢
  generalize (i + 1) % n = q at h2 ⊢
  generalize (i + n - 1) % n = p at h3 ⊢
  omega

theorem band_neighbors {n : Nat} (hn : 3 ≤ n) {r i : Nat} (hr : r < n) (hi : i < n) :
    decide (i = r ∨ i = (r + 1) % n) = true →
    decide ((i + n - 1) % n = r ∨ (i + n - 1) % n = (r + 1) % n) ≠
      decide ((i + 1) % n = r ∨ (i + 1) % n = (r + 1) % n) := by
  intro h
  have key := band_neighbors_iff hn hr hi (of_decide_eq_true h)
  by_cases hq : (i + 1) % n = r ∨ (i + 1) % n = (r + 1) % n
  · rw [decide_eq_true hq, decide_eq_false (fun hp => (key.mp hp) hq)]
    decide
  · rw [decide_eq_false hq, decide_eq_true (key.mpr hq)]
    decide

/-- On a torus with at least three rows a row and its two adjacent rows are
pairwise different. -/
theorem adjacent_rows_distinct {n : Nat} (hn : 3 ≤ n) {i : Nat} (hi : i < n) :
    (i + n - 1) % n ≠ i ∧ (i + n - 1) % n ≠ (i + 1) % n ∧ i ≠ (i + 1) % n := by
  have h2 := succ_mod_spec hi
  have h3 := pred_mod_spec hi
  generalize (i + 1) % n = q at h2 ⊢
  generalize (i + n - 1) % n = p at h3 ⊢
  omega

/-- At most one of a row and its two adjacent rows is a given row. -/
theorem single_neighbors {n : Nat} (hn : 3 ≤ n) (r : Nat) {i : Nat} (hi : i < n) :
    (decide ((i + n - 1) % n = r) && decide (i = r)) = false ∧
    (decide ((i + n - 1) % n = r) && decide ((i + 1) % n = r)) = false ∧
    (decide (i = r) && decide ((i + 1) % n = r)) = false := by
  obtain ⟨h1, h2, h3⟩ := adjacent_rows_distinct hn hi
  refine ⟨?_, ?_, ?_⟩
  · by_cases e : i = r
    · rw [decide_eq_false (fun h => h1 (h.trans e.symm))]; rfl
    · rw [decide_eq_false e, Bool.and_false]
  · by_cases e : (i + 1) % n = r
    · rw [decide_eq_false (fun h => h2 (h.trans e.symm))]; rfl
    · rw [decide_eq_false e, Bool.and_false]
  · by_cases e : (i + 1) % n = r
    · rw [decide_eq_false (fun h => h3 (h.trans e.symm))]; rfl
    · rw [decide_eq_false e, Bool.and_false]

/-! ## Still lifes and dying patterns -/

theorem readCell_constGrid (nRows nCols v : Nat) {r c : Nat} (hr : r < nRows) (hc : c < nCols) :
    readCell (constGrid nRows nCols v) (r : Int) (c : Int) = some v := by
  have h1 : r < (constGrid nRows nCols v).length := by simpa [constGrid] using hr
  have h2 : c < ((constGrid nRows nCols v)[r]).length := by simpa [constGrid] using hc
  rw [readCell_getElem h1 h2]
  simp [constGrid]

theorem constGrid_eq_tabulate (nRows nCols v : Nat) :
    constGrid nRows nCols v = tabulate nRows nCols (fun _ _ => v) :=
  eq_tabulate_of_cells (WF_constGrid nRows nCols v) _
    (fun _ _ hr hc => readCell_constGrid nRows nCols v hr hc)

/-- The next generation of a 2x2 block on a torus with at least three rows and
columns is the block itself. -/
theorem nextGeneration_blockGrid {nRows nCols : Nat} (hR : 3 ≤ nRows) (hC : 3 ≤ nCols)
    {r c : Nat} (hr : r < nRows) (hc : c < nCols) :
    nextGeneration nRows nCols (blockGrid nRows nCols r c) = blockGrid nRows nCols r c := by
  rw [nextGeneration_eq_tabulate]
  unfold blockGrid
  rw [productGrid]
  apply tabulate_congr
  intro i j hi hj
  rw [← productGrid, nextCell_productGrid nRows nCols _ _ hi hj,
    rule_block _ _ _ _ _ _ (band_neighbors hR hr hi) (band_neighbors hC hc hj)]

/-- The next generation of a single live cell on a torus with at least three
rows and columns is the all-DEAD grid. -/
theorem nextGeneration_singleCellGrid {nRows nCols : Nat} (hR : 3 ≤ nRows) (hC : 3 ≤ nCols)
    (r c : Nat) :
    nextGeneration nRows nCols (singleCellGrid nRows nCols r c) = constGrid nRows nCols 0 := by
  rw [nextGeneration_eq_tabulate, constGrid_eq_tabulate]
  unfold singleCellGrid
  apply tabulate_congr
  intro i j hi hj
  rw [nextCell_productGrid nRows nCols _ _ hi hj,
    rule_single _ _ _ _ _ _ (single_neighbors hR r hi) (single_neighbors hC c hj)]
  rfl

/-! ## Calls on the program state -/

theorem call_initGrid_false (rand : Nat → Nat) (m : Machine) (hG : WF Rows Columns m.Grid) :
    m.call rand (Call.initGrid false) =
      some { m with
        Grid := tabulate Rows Columns
          (fun r c => if rand (m.randCalls + r * Columns + c) % 100 < aliveThreshold then 1 else 0),
        randCalls := m.randCalls + Rows * Columns } := by
  simp only [Machine.call, initGrid_eq aliveThreshold rand m.randCalls hG]

theorem call_initGrid_true (rand : Nat → Nat) (m : Machine) (hN : WF Rows Columns m.NewGrid) :
    m.call rand (Call.initGrid true) =
      some { m with
        NewGrid := tabulate Rows Columns
          (fun r c => if rand (m.randCalls + r * Columns + c) % 100 < aliveThreshold then 1 else 0),
        randCalls := m.randCalls + Rows * Columns } := by
  simp only [Machine.call, initGrid_eq aliveThreshold rand m.randCalls hN]

theorem call_updateGrid_false (rand : Nat → Nat) (m : Machine) (hG : WF Rows Columns m.Grid)
    (hN : WF Rows Columns m.NewGrid) :
    m.call rand (Call.updateGrid false) =
      some { m with
        Grid := nextGeneration Rows Columns m.Grid,
        NewGrid := nextGeneration Rows Columns m.Grid } := by
  simp only [Machine.call, updateGrid_eq hG hN]

theorem call_updateGrid_true (rand : Nat → Nat) (m : Machine) (hG : WF Rows Columns m.Grid)
    (hN : WF Rows Columns m.NewGrid) :
    m.call rand (Call.updateGrid true) =
      some { m with
        Grid := nextGeneration Rows Columns m.NewGrid,
        NewGrid := nextGeneration Rows Columns m.NewGrid } := by
  simp only [Machine.call, updateGrid_eq hN hG]

theorem call_printGrid (rand : Nat → Nat) (m : Machine) (hG : WF Rows Columns m.Grid)
    (onNewGrid : Bool) :
    m.call rand (Call.printGrid onNewGrid) =
      some { m with stdout := m.stdout ++ renderText m.Grid } := by
  cases onNewGrid with
  | false => simp only [Machine.call, printGrid_eq hG m.Grid]
  | true => simp only [Machine.call, printGrid_eq hG m.NewGrid]

/-- Every call returns on well-formed globals and leaves them well-formed. -/
theorem call_preserves_WF (rand : Nat → Nat) (m : Machine) (hG : WF Rows Columns m.Grid)
    (hN : WF Rows Columns m.NewGrid) (k : Call) :
    ∃ m2, m.call rand k = some m2 ∧ WF Rows Columns m2.Grid ∧ WF Rows Columns m2.NewGrid := by
  cases k with
  | initGrid onNewGrid =>
    cases onNewGrid with
    | false => exact ⟨_, call_initGrid_false rand m hG, WF_tabulate Rows Columns _, hN⟩
    | true => exact ⟨_, call_initGrid_true rand m hN, hG, WF_tabulate Rows Columns _⟩
  | updateGrid swapped =>
    cases swapped with
    | false =>
      exact ⟨_, call_updateGrid_false rand m hG hN, WF_nextGeneration Rows Columns _,
        WF_nextGeneration Rows Columns _⟩
    | true =>
      exact ⟨_, call_updateGrid_true rand m hG hN, WF_nextGeneration Rows Columns _,
        WF_nextGeneration Rows Columns _⟩
  | printGrid onNewGrid => exact ⟨_, call_printGrid rand m hG onNewGrid, hG, hN⟩

/-- Every sequence of calls returns on well-formed globals and leaves them
well-formed. -/
theorem run_preserves_WF (rand : Nat → Nat) (calls : List Call) (m : Machine)
    (hG : WF Rows Columns m.Grid) (hN : WF Rows Columns m.NewGrid) :
    ∃ m2, m.run rand calls = some m2 ∧ WF Rows Columns m2.Grid ∧
      WF Rows Columns m2.NewGrid := by
  induction calls generalizing m with
  | nil => exact ⟨m, rfl, hG, hN⟩
  | cons k ks ih =>
    obtain ⟨m1, h1, hG1, hN1⟩ := call_preserves_WF rand m hG hN k
    obtain ⟨m2, h2, hG2, hN2⟩ := ih m1 hG1 hN1
    refine ⟨m2, ?_, hG2, hN2⟩
    unfold Machine.run at h2 ⊢
    rw [List.foldlM_cons, h1]
    exact h2

/-! ## The normalisation of the specification -/

/-- The normalisation of the specification gives the floor residue for every
index above minus the dimension. -/
theorem specWrap_eq_emod {n : Nat} (hn : 0 < n) {i : Int} (hi : -(n : Int) < i) :
    specWrap n i = i % (n : Int) := by
  unfold specWrap
  by_cases hneg : i < 0
  · rw [tmod_of_neg hneg n, Int.emod_eq_of_lt (by omega) (by omega), Int.neg_neg,
      Int.tmod_eq_emod (by omega) (Int.ofNat_nonneg n), Int.add_emod_self]
  · have h0 : 0 ≤ i := by omega
    rw [Int.tmod_eq_emod h0 (Int.ofNat_nonneg n)]
    have h1 : 0 ≤ i % (n : Int) := Int.emod_nonneg _ (by omega)
    rw [Int.tmod_eq_emod (by omega) (Int.ofNat_nonneg n), Int.add_emod_self, Int.emod_emod]

/-! ## Translation on the torus -/

theorem isAlive_shiftGrid {nRows nCols : Nat} (hR : 0 < nRows) (hC : 0 < nCols)
    {grid : CellGrid} (h : WF nRows nCols grid) (a b x y : Int) :
    isAlive (shiftGrid nRows nCols a b grid) (x % (nRows : Int)) (y % (nCols : Int)) =
      isAlive grid ((x + a) % (nRows : Int)) ((y + b) % (nCols : Int)) := by
  obtain ⟨i, hi, hie⟩ := emod_index hR x
  obtain ⟨j, hj, hje⟩ := emod_index hC y
  obtain ⟨i2, hi2, hie2⟩ := emod_index hR (x + a)
  obtain ⟨j2, hj2, hje2⟩ := emod_index hC (y + b)
  obtain ⟨v, hv⟩ := readCell_isSome_of_WF h hi2 hj2
  have e1 : ((i : Int) + a) % (nRows : Int) = (i2 : Int) := by
    rw [← hie, Int.emod_add_emod, hie2]
  have e2 : ((j : Int) + b) % (nCols : Int) = (j2 : Int) := by
    rw [← hje, Int.emod_add_emod, hje2]
  rw [hie, hje, hie2, hje2, isAlive_of_read hv]
  unfold shiftGrid
  rw [isAlive_tabulate nRows nCols _ hi hj, e1, e2, hv]
  rfl

theorem index_emod_self {n i : Nat} (hi : i < n) : (i : Int) % (n : Int) = (i : Int) :=
  Int.emod_eq_of_lt (Int.ofNat_nonneg i) (by omega)

/-- The next generation of a translated grid is the translated next
generation. -/
theorem nextGeneration_shiftGrid {nRows nCols : Nat} {grid : CellGrid}
    (h : WF nRows nCols grid) (a b : Int) :
    nextGeneration nRows nCols (shiftGrid nRows nCols a b grid) =
      shiftGrid nRows nCols a b (nextGeneration nRows nCols grid) := by
  rw [nextGeneration_eq_tabulate]
  unfold shiftGrid
  apply tabulate_congr
  intro r c hr hc
  have hR : 0 < nRows := by omega
  have hC : 0 < nCols := by omega
  obtain ⟨i, hi, hie⟩ := emod_index hR ((r : Int) + a)
  obtain ⟨j, hj, hje⟩ := emod_index hC ((c : Int) + b)
  rw [hie, hje, readCell_nextGeneration nRows nCols grid hi hj, Option.getD_some]
  have hself : isAlive (shiftGrid nRows nCols a b grid) (r : Int) (c : Int) =
      isAlive grid (i : Int) (j : Int) := by
    have key := isAlive_shiftGrid hR hC h a b (r : Int) (c : Int)
    rw [index_emod_self hr, index_emod_self hc, hie, hje] at key
    exact key
  have hcount : countLiveNeighbors nRows nCols (shiftGrid nRows nCols a b grid) (r : Int) (c : Int) =
      countLiveNeighbors nRows nCols grid (i : Int) (j : Int) := by
    unfold countLiveNeighbors
    apply List.countP_congr
    intro d _
    have key := isAlive_shiftGrid hR hC h a b ((r : Int) + d.1) ((c : Int) + d.2)
    have e1 : ((r : Int) + d.1 + a) % (nRows : Int) = ((i : Int) + d.1) % (nRows : Int) := by
      rw [← hie, Int.emod_add_emod, Int.add_right_comm]
    have e2 : ((c : Int) + d.2 + b) % (nCols : Int) = ((j : Int) + d.2) % (nCols : Int) := by
      rw [← hje, Int.emod_add_emod, Int.add_right_comm]
    rw [e1, e2] at key
    rw [key]
  unfold shiftGrid at hself hcount
  unfold nextCell
  rw [hself, hcount]

/-! ## Normalised cell values -/

theorem Binary_tabulate (nRows nCols : Nat) (f : Nat → Nat → Nat)
    (hf : ∀ r c, f r c = 0 ∨ f r c = 1) : Binary (tabulate nRows nCols f) := by
  intro row hrow v hv
  simp only [tabulate, List.mem_map, List.mem_range] at hrow
  obtain ⟨r, _, rfl⟩ := hrow
  simp only [List.mem_map, List.mem_range] at hv
  obtain ⟨c, _, rfl⟩ := hv
  exact hf r c

theorem Binary_nextGeneration (nRows nCols : Nat) (grid : CellGrid) :
    Binary (nextGeneration nRows nCols grid) := by
  apply Binary_tabulate
  intro r c
  unfold nextCell
  split
  · exact Or.inr rfl
  · exact Or.inl rfl

theorem WF_normalize {nRows nCols : Nat} {grid : CellGrid} (h : WF nRows nCols grid) :
    WF nRows nCols (normalize grid) := by
  refine ⟨by simpa [normalize] using h.1, ?_⟩
  intro row hrow
  simp only [normalize, List.mem_map] at hrow
  obtain ⟨row0, hrow0, rfl⟩ := hrow
  simpa using h.2 row0 hrow0

theorem readCell_normalize (grid : CellGrid) (i j : Int) :
    readCell (normalize grid) i j =
      (readCell grid i j).map (fun v => if v ≠ 0 then 1 else 0) := by
  unfold readCell normalize
  split
  · rw [List.getElem?_map]
    cases grid[i.toNat]? with
    | none => rfl
    | some row => simp [List.getElem?_map]
  · rfl

theorem isAlive_normalize (grid : CellGrid) (i j : Int) :
    isAlive (normalize grid) i j = isAlive grid i j := by
  unfold isAlive
  rw [readCell_normalize]
  cases readCell grid i j with
  | none => rfl
  | some v => by_cases hv : v = 0 <;> simp [hv]

theorem nextGeneration_normalize (nRows nCols : Nat) (grid : CellGrid) :
    nextGeneration nRows nCols (normalize grid) = nextGeneration nRows nCols grid := by
  rw [nextGeneration_eq_tabulate, nextGeneration_eq_tabulate]
  apply tabulate_congr
  intro r c _ _
  apply nextCell_congr (isAlive_normalize grid _ _)
  unfold countLiveNeighbors
  apply List.countP_congr
  intro d _
  rw [isAlive_normalize]

/-! ## The row of four on the 5x5 torus -/

/-- Translating back undoes a translation. -/
theorem shiftGrid_neg_shiftGrid {nRows nCols : Nat} {grid : CellGrid}
    (h : WF nRows nCols grid) (a b : Int) :
    shiftGrid nRows nCols (-a) (-b) (shiftGrid nRows nCols a b grid) = grid := by
  symm
  apply eq_tabulate_of_cells h
  intro r c hr hc
  have hR : 0 < nRows := by omega
  have hC : 0 < nCols := by omega
  obtain ⟨i, hi, hie⟩ := emod_index hR ((r : Int) + -a)
  obtain ⟨j, hj, hje⟩ := emod_index hC ((c : Int) + -b)
  obtain ⟨v, hv⟩ := readCell_isSome_of_WF h hr hc
  have e1 : ((i : Int) + a) % (nRows : Int) = (r : Int) := by
    rw [← hie, Int.emod_add_emod, Int.neg_add_cancel_right, index_emod_self hr]
  have e2 : ((j : Int) + b) % (nCols : Int) = (c : Int) := by
    rw [← hje, Int.emod_add_emod, Int.neg_add_cancel_right, index_emod_self hc]
  rw [hie, hje]
  unfold shiftGrid
  rw [readCell_tabulate nRows nCols _ hi hj, e1, e2, hv]
  rfl

theorem shiftGrid_injective {nRows nCols : Nat} {g1 g2 : CellGrid} (h1 : WF nRows nCols g1)
    (h2 : WF nRows nCols g2) (a b : Int)
    (h : shiftGrid nRows nCols a b g1 = shiftGrid nRows nCols a b g2) : g1 = g2 := by
  rw [← shiftGrid_neg_shiftGrid h1 a b, h, shiftGrid_neg_shiftGrid h2 a b]

/-- Every row of four on the 5x5 torus is a translation of the one starting
at `(0, 0)`. -/
theorem rowOfFourGrid_eq_shift : ∀ r < 5, ∀ c < 5,
    rowOfFourGrid 5 5 r c = shiftGrid 5 5 (-(r : Int)) (-(c : Int)) (rowOfFourGrid 5 5 0 0) := by
  decide

/-- The first three generations of the row of four starting at `(0, 0)`. -/
theorem rowOfFour_origin_evolution :
    nextGeneration 5 5 (rowOfFourGrid 5 5 0 0) ≠ rowOfFourGrid 5 5 0 0 ∧
    nextGeneration 5 5 (nextGeneration 5 5 (rowOfFourGrid 5 5 0 0)) ≠ rowOfFourGrid 5 5 0 0 ∧
    nextGeneration 5 5 (nextGeneration 5 5 (nextGeneration 5 5 (rowOfFourGrid 5 5 0 0))) =
      nextGeneration 5 5 (nextGeneration 5 5 (rowOfFourGrid 5 5 0 0)) := by
  decide

/-- The evolution of a row of four live cells on the 5x5 torus, for every
position of the row: the first and second generations differ from the row,
and the second generation is a still life. -/
theorem rowOfFour_evolution (r c : Nat) (hr : r < 5) (hc : c < 5) :
    nextGeneration 5 5 (rowOfFourGrid 5 5 r c) ≠ rowOfFourGrid 5 5 r c ∧
    nextGeneration 5 5 (nextGeneration 5 5 (rowOfFourGrid 5 5 r c)) ≠ rowOfFourGrid 5 5 r c ∧
    nextGeneration 5 5 (nextGeneration 5 5 (nextGeneration 5 5 (rowOfFourGrid 5 5 r c))) =
      nextGeneration 5 5 (nextGeneration 5 5 (rowOfFourGrid 5 5 r c)) := by
  obtain ⟨e1, e2, e3⟩ := rowOfFour_origin_evolution
  have h0 : WF 5 5 (rowOfFourGrid 5 5 0 0) := WF_tabulate 5 5 _
  have h1 : WF 5 5 (nextGeneration 5 5 (rowOfFourGrid 5 5 0 0)) := WF_nextGeneration 5 5 _
  have h2 : WF 5 5 (nextGeneration 5 5 (nextGeneration 5 5 (rowOfFourGrid 5 5 0 0))) :=
    WF_nextGeneration 5 5 _
  rw [rowOfFourGrid_eq_shift r hr c hc, nextGeneration_shiftGrid h0, nextGeneration_shiftGrid h1,
    nextGeneration_shiftGrid h2, e3]
  exact ⟨fun h => e1 (shiftGrid_injective h1 h0 _ _ h),
    fun h => e2 (shiftGrid_injective h2 h0 _ _ h), rfl⟩

/-! # The claims -/

/-- C1: for every 20x100 current grid `g`, every scratch grid `s` of the same
size and every in-range cell `(r, c)`, `updateGrid` returns and the cell
`(r, c)` of the resulting current grid holds `1` (ALIVE) exactly when, with
`n = getNeighborCount(g, r, c)` and `v = g[r][c]` taken on the grid as it was
before the call, either `v` is ALIVE and `n` is 2 or 3, or `v` is DEAD and `n`
is 3; in every other case it holds `0` (DEAD). -/
theorem updateGrid_applies_rule (g s : CellGrid) (hg : WF Rows Columns g)
    (hs : WF Rows Columns s) (r c : Nat) (hr : r < Rows) (hc : c < Columns) :
    ∃ g' s' n v, updateGrid Rows Columns g s = some (g', s') ∧
      getNeighborCount Rows Columns g (r : Int) (c : Int) = some n ∧
      readCell g (r : Int) (c : Int) = some v ∧
      readCell g' (r : Int) (c : Int) =
        some (if (v ≠ 0 ∧ (n = 2 ∨ n = 3)) ∨ (v = 0 ∧ n = 3) then 1 else 0) := by
  obtain ⟨v, hv⟩ := readCell_isSome_of_WF hg hr hc
  refine ⟨_, _, _, v, updateGrid_eq hg hs, getNeighborCount_eq hg hr hc, hv, ?_⟩
  rw [readCell_nextGeneration Rows Columns g hr hc]
  unfold nextCell ruleB3S23
  rw [isAlive_of_read hv]
  by_cases hz : v = 0 <;> simp [hz]

/-- Witness for C1: the all-DEAD configured grid at the cell `(0, 0)`. -/
theorem updateGrid_applies_rule_witness :
    ∃ g' s' n v, updateGrid Rows Columns deadGrid aliveGrid = some (g', s') ∧
      getNeighborCount Rows Columns deadGrid ((0 : Nat) : Int) ((0 : Nat) : Int) = some n ∧
      readCell deadGrid ((0 : Nat) : Int) ((0 : Nat) : Int) = some v ∧
      readCell g' ((0 : Nat) : Int) ((0 : Nat) : Int) =
        some (if (v ≠ 0 ∧ (n = 2 ∨ n = 3)) ∨ (v = 0 ∧ n = 3) then 1 else 0) :=
  updateGrid_applies_rule deadGrid aliveGrid (WF_constGrid Rows Columns 0)
    (WF_constGrid Rows Columns 1) 0 0 (by decide) (by decide)

/-- C2: for every 20x100 grid and every in-range cell, `getNeighborCount`
returns the number of offsets `(dr, dc)` in `{-1,0,1} × {-1,0,1}` other than
`(0,0)` for which the cell at `((row+dr) mod Rows, (column+dc) mod Columns)` is
ALIVE, and that number is at most 8, so the `uint8_t` counter never wraps. -/
theorem getNeighborCount_counts_live_neighbors (g : CellGrid) (hg : WF Rows Columns g)
    (row column : Nat) (hr : row < Rows) (hc : column < Columns) :
    ∃ n, getNeighborCount Rows Columns g (row : Int) (column : Int) = some n ∧
      n = (neighborOffsets.filter (fun d =>
        isAlive g (((row : Int) + d.1) % (Rows : Int))
          (((column : Int) + d.2) % (Columns : Int)))).length ∧
      0 ≤ n ∧ n ≤ 8 := by
  refine ⟨_, getNeighborCount_eq hg hr hc, ?_, Nat.zero_le _,
    countLiveNeighbors_le Rows Columns g (row : Int) (column : Int)⟩
  unfold countLiveNeighbors
  rw [List.countP_eq_length_filter]

/-- Witness for C2: the all-ALIVE configured grid at the corner `(19, 99)`. -/
theorem getNeighborCount_counts_live_neighbors_witness :
    ∃ n, getNeighborCount Rows Columns aliveGrid ((19 : Nat) : Int) ((99 : Nat) : Int) = some n ∧
      n = (neighborOffsets.filter (fun d =>
        isAlive aliveGrid ((((19 : Nat) : Int) + d.1) % (Rows : Int))
          ((((99 : Nat) : Int) + d.2) % (Columns : Int)))).length ∧
      0 ≤ n ∧ n ≤ 8 :=
  getNeighborCount_counts_live_neighbors aliveGrid (WF_constGrid Rows Columns 1) 19 99
    (by decide) (by decide)

/-- C3, as stated, fails: at `row = -25` the offset `-1` gives
`destRow = (-25 - 1 + 20) % 20 = -6`, a negative address, so the addresses are
not in range for every integer `row` and `column`. -/
theorem destRow_out_of_range :
    destRow Rows (-25) (-1) = -6 ∧
    ¬ (∀ row column : Int, ∀ d ∈ neighborOffsets,
      (0 ≤ destRow Rows row d.1 ∧ destRow Rows row d.1 < (Rows : Int)) ∧
      (0 ≤ destColumn Columns column d.2 ∧ destColumn Columns column d.2 < (Columns : Int))) := by
  refine ⟨by decide, ?_⟩
  intro h
  have a := (h (-25) 0 (-1, -1) (by decide)).1.1
  revert a
  decide

/-- C3, amended: every one of the 8 addresses `destRow = (row + r + Rows) % Rows`,
`destColumn = (column + c + Columns) % Columns` (truncating `%`) is in range
exactly when `-Rows < row` and `-Columns < column`; in particular the addresses
are in range for every cell of the grid and for every larger `row`, `column`.
(`int` is unbounded here, so this covers every `int` whose sums do not
overflow.) -/
theorem dest_in_range_iff (row column : Int) :
    (∀ d ∈ neighborOffsets,
      (0 ≤ destRow Rows row d.1 ∧ destRow Rows row d.1 < (Rows : Int)) ∧
      (0 ≤ destColumn Columns column d.2 ∧ destColumn Columns column d.2 < (Columns : Int))) ↔
    (-(Rows : Int) < row ∧ -(Columns : Int) < column) := by
  have hR : ((Rows : Nat) : Int) = 20 := rfl
  have hC : ((Columns : Nat) : Int) = 100 := rfl
  constructor
  · intro h
    have a := h (-1, -1) (by decide)
    have b := h (0, 1) (by decide)
    have r1 := destRow_cases Rows row (-1)
    have r2 := destRow_cases Rows row 0
    have c1 := destColumn_cases Columns column (-1)
    have c2 := destColumn_cases Columns column 1
    simp only [hR, hC] at a b r1 r2 c1 c2 ⊢
    omega
  · intro h d hd
    obtain ⟨h1, h2, _⟩ := offset_bounds hd
    have r1 := (destRow_cases Rows row d.1).1
    have c1 := (destColumn_cases Columns column d.2).1
    simp only [hR, hC] at r1 c1 h ⊢
    omega

/-- C4, the code at the failing input: with the global `Grid` all DEAD and the
argument all ALIVE, `printGrid` emits 20 lines of 100 dots, the text of the
global grid, not the text of its argument (20 lines of 100 `X`). -/
theorem printGrid_renders_global_not_argument :
    printGrid Rows Columns deadGrid aliveGrid =
      some (List.replicate 20 (List.replicate 100 '.' ++ ['\n'])).flatten ∧
    renderText aliveGrid = (List.replicate 20 (List.replicate 100 'X' ++ ['\n'])).flatten ∧
    printGrid Rows Columns deadGrid aliveGrid ≠ some (renderText aliveGrid) := by
  have h1 : printGrid Rows Columns deadGrid aliveGrid =
      some (List.replicate 20 (List.replicate 100 '.' ++ ['\n'])).flatten := by
    show printGrid Rows Columns (constGrid Rows Columns 0) aliveGrid = _
    rw [printGrid_eq (WF_constGrid Rows Columns 0) aliveGrid]
    exact congrArg some (renderText_constGrid Rows Columns 0)
  have h2 : renderText aliveGrid =
      (List.replicate 20 (List.replicate 100 'X' ++ ['\n'])).flatten :=
    renderText_constGrid Rows Columns 1
  refine ⟨h1, h2, ?_⟩
  rw [h1, h2]
  intro h
  have h3 := congrArg (fun o => (o.getD []).head?) h
  revert h3
  decide

/-- C5: for every pair of 20x100 grids `g1`, `g2` that agree on the ALIVE/DEAD
state of the in-range cell `(r, c)`: both `updateGrid` calls return, and the
cell `(r, c)` of the two resulting grids is the same as soon as `g1` and `g2`
agree on the state of the 8 toroidal neighbours of `(r, c)`, however they
differ elsewhere; the same holds as soon as they agree on the count of alive
neighbours that `getNeighborCount` returns. -/
theorem updateGrid_cell_depends_on_neighborhood (g1 g2 s1 s2 : CellGrid)
    (h1 : WF Rows Columns g1) (h2 : WF Rows Columns g2)
    (hs1 : WF Rows Columns s1) (hs2 : WF Rows Columns s2)
    (r c : Nat) (hr : r < Rows) (hc : c < Columns)
    (hself : isAlive g1 (r : Int) (c : Int) = isAlive g2 (r : Int) (c : Int)) :
    ∃ a1 b1 a2 b2 v1 v2,
      updateGrid Rows Columns g1 s1 = some (a1, b1) ∧
      updateGrid Rows Columns g2 s2 = some (a2, b2) ∧
      readCell a1 (r : Int) (c : Int) = some v1 ∧
      readCell a2 (r : Int) (c : Int) = some v2 ∧
      ((∀ d ∈ neighborOffsets,
          isAlive g1 (((r : Int) + d.1) % (Rows : Int)) (((c : Int) + d.2) % (Columns : Int)) =
          isAlive g2 (((r : Int) + d.1) % (Rows : Int)) (((c : Int) + d.2) % (Columns : Int))) →
        v1 = v2) ∧
      (getNeighborCount Rows Columns g1 (r : Int) (c : Int) =
          getNeighborCount Rows Columns g2 (r : Int) (c : Int) → v1 = v2) := by
  refine ⟨_, _, _, _, _, _, updateGrid_eq h1 hs1, updateGrid_eq h2 hs2,
    readCell_nextGeneration Rows Columns g1 hr hc,
    readCell_nextGeneration Rows Columns g2 hr hc, ?_, ?_⟩
  · intro hnb
    apply nextCell_congr hself
    unfold countLiveNeighbors
    apply List.countP_congr
    intro d hd
    rw [hnb d hd]
  · intro hcount
    rw [getNeighborCount_eq h1 hr hc, getNeighborCount_eq h2 hr hc] at hcount
    exact nextCell_congr hself (Option.some.inj hcount)

/-- Witness for C5: the all-DEAD grid and the grid whose only ALIVE cell is
`(10, 50)`, compared at the cell `(3, 4)`, with different scratch grids. -/
theorem updateGrid_cell_depends_on_neighborhood_witness :
    ∃ a1 b1 a2 b2 v1 v2,
      updateGrid Rows Columns deadGrid aliveGrid = some (a1, b1) ∧
      updateGrid Rows Columns farCellGrid deadGrid = some (a2, b2) ∧
      readCell a1 ((3 : Nat) : Int) ((4 : Nat) : Int) = some v1 ∧
      readCell a2 ((3 : Nat) : Int) ((4 : Nat) : Int) = some v2 ∧
      ((∀ d ∈ neighborOffsets,
          isAlive deadGrid ((((3 : Nat) : Int) + d.1) % (Rows : Int))
            ((((4 : Nat) : Int) + d.2) % (Columns : Int)) =
          isAlive farCellGrid ((((3 : Nat) : Int) + d.1) % (Rows : Int))
            ((((4 : Nat) : Int) + d.2) % (Columns : Int))) →
        v1 = v2) ∧
      (getNeighborCount Rows Columns deadGrid ((3 : Nat) : Int) ((4 : Nat) : Int) =
          getNeighborCount Rows Columns farCellGrid ((3 : Nat) : Int) ((4 : Nat) : Int) →
        v1 = v2) :=
  updateGrid_cell_depends_on_neighborhood deadGrid farCellGrid aliveGrid deadGrid
    (by decide) (by decide) (by decide) (by decide) 3 4 (by decide) (by decide) (by decide)

/-- C6: for every 20x100 current grid `g` and every two 20x100 scratch grids
`s1`, `s2`, the calls `updateGrid(g, s1)` and `updateGrid(g, s2)` both return
and produce the same current grid and the same scratch grid: nothing of the
prior scratch content survives or influences the result. -/
theorem updateGrid_independent_of_scratch (g s1 s2 : CellGrid) (hg : WF Rows Columns g)
    (hs1 : WF Rows Columns s1) (hs2 : WF Rows Columns s2) :
    ∃ g' s', updateGrid Rows Columns g s1 = some (g', s') ∧
      updateGrid Rows Columns g s2 = some (g', s') :=
  ⟨_, _, updateGrid_eq hg hs1, updateGrid_eq hg hs2⟩

/-- Witness for C6: the all-ALIVE grid with an all-DEAD and an all-ALIVE
scratch grid. -/
theorem updateGrid_independent_of_scratch_witness :
    ∃ g' s', updateGrid Rows Columns aliveGrid deadGrid = some (g', s') ∧
      updateGrid Rows Columns aliveGrid aliveGrid = some (g', s') :=
  updateGrid_independent_of_scratch aliveGrid deadGrid aliveGrid (WF_constGrid Rows Columns 1)
    (WF_constGrid Rows Columns 0) (WF_constGrid Rows Columns 1)

/-- C7: on the configured grid, for every in-range cell `(r, c)` the 8
addresses `(destRow, destColumn)` that `getNeighborCount` visits are pairwise
distinct, all in range, and none of them is `(r, c)` itself: every cell has
exactly 8 neighbours. -/
theorem neighbor_addresses_distinct (r c : Nat) (hr : r < Rows) (hc : c < Columns) :
    (neighborOffsets.map (fun d => (destRow Rows (r : Int) d.1, destColumn Columns (c : Int) d.2))).Nodup ∧
    (neighborOffsets.map (fun d => (destRow Rows (r : Int) d.1, destColumn Columns (c : Int) d.2))).length = 8 ∧
    (∀ p ∈ neighborOffsets.map
        (fun d => (destRow Rows (r : Int) d.1, destColumn Columns (c : Int) d.2)),
      (0 ≤ p.1 ∧ p.1 < (Rows : Int)) ∧ (0 ≤ p.2 ∧ p.2 < (Columns : Int))) ∧
    ((r : Int), (c : Int)) ∉ neighborOffsets.map
      (fun d => (destRow Rows (r : Int) d.1, destColumn Columns (c : Int) d.2)) := by
  have hR : ((Rows : Nat) : Int) = 20 := rfl
  have hC : ((Columns : Nat) : Int) = 100 := rfl
  have hr2 : r < 20 := hr
  have hc2 : c < 100 := hc
  have r1 : destRow Rows (r : Int) (-1) = ((r : Int) + -1) % 20 := destRow_eq_emod (by omega)
  have r2 : destRow Rows (r : Int) 0 = ((r : Int) + 0) % 20 := destRow_eq_emod (by omega)
  have r3 : destRow Rows (r : Int) 1 = ((r : Int) + 1) % 20 := destRow_eq_emod (by omega)
  have c1 : destColumn Columns (c : Int) (-1) = ((c : Int) + -1) % 100 :=
    destColumn_eq_emod (by omega)
  have c2 : destColumn Columns (c : Int) 0 = ((c : Int) + 0) % 100 :=
    destColumn_eq_emod (by omega)
  have c3 : destColumn Columns (c : Int) 1 = ((c : Int) + 1) % 100 :=
    destColumn_eq_emod (by omega)
  simp only [neighborOffsets_eq, List.map_cons, List.map_nil]
  generalize destRow Rows (r : Int) (-1) = a1 at r1 ⊢
  generalize destRow Rows (r : Int) 0 = a2 at r2 ⊢
  generalize destRow Rows (r : Int) 1 = a3 at r3 ⊢
  generalize destColumn Columns (c : Int) (-1) = b1 at c1 ⊢
  generalize destColumn Columns (c : Int) 0 = b2 at c2 ⊢
  generalize destColumn Columns (c : Int) 1 = b3 at c3 ⊢
  simp only [hR, hC, List.nodup_cons, List.mem_cons, List.mem_singleton, List.not_mem_nil,
    Prod.mk.injEq, List.nodup_nil, List.length_cons, List.length_nil, forall_eq_or_imp,
    forall_eq, true_and, or_false, not_or, not_false_eq_true, and_true, implies_true]
  omega

/-- Witness for C7: the corner cell `(0, 0)`. -/
theorem neighbor_addresses_distinct_witness :
    (neighborOffsets.map (fun d => (destRow Rows ((0 : Nat) : Int) d.1,
      destColumn Columns ((0 : Nat) : Int) d.2))).Nodup ∧
    (neighborOffsets.map (fun d => (destRow Rows ((0 : Nat) : Int) d.1,
      destColumn Columns ((0 : Nat) : Int) d.2))).length = 8 ∧
    (∀ p ∈ neighborOffsets.map
        (fun d => (destRow Rows ((0 : Nat) : Int) d.1, destColumn Columns ((0 : Nat) : Int) d.2)),
      (0 ≤ p.1 ∧ p.1 < (Rows : Int)) ∧ (0 ≤ p.2 ∧ p.2 < (Columns : Int))) ∧
    (((0 : Nat) : Int), ((0 : Nat) : Int)) ∉ neighborOffsets.map
      (fun d => (destRow Rows ((0 : Nat) : Int) d.1, destColumn Columns ((0 : Nat) : Int) d.2)) :=
  neighbor_addresses_distinct 0 0 (by decide) (by decide)

/-- C8: on every 20x100 grid, `getNeighborCount(grid, 0, 0)` returns the number
of ALIVE cells among exactly the eight cells `(R-1,C-1)`, `(R-1,0)`, `(R-1,1)`,
`(0,C-1)`, `(0,1)`, `(1,C-1)`, `(1,0)`, `(1,1)`, which are pairwise distinct and
do not include `(0,0)`; a grid that agrees with it on these eight cells (and
differs anywhere else, `(0,0)` included) gives the same result; and flipping
one cell of the set, the other seven kept, changes the result by exactly 1. -/
theorem getNeighborCount_origin (g : CellGrid) (hg : WF Rows Columns g) :
    getNeighborCount Rows Columns g 0 0 =
      some ((originNeighbors Rows Columns).countP (fun p => isAlive g p.1 p.2)) ∧
    ((originNeighbors Rows Columns).Nodup ∧ (originNeighbors Rows Columns).length = 8 ∧
      ((0 : Int), (0 : Int)) ∉ originNeighbors Rows Columns) ∧
    (∀ g2, WF Rows Columns g2 →
      (∀ p ∈ originNeighbors Rows Columns, isAlive g2 p.1 p.2 = isAlive g p.1 p.2) →
      getNeighborCount Rows Columns g2 0 0 = getNeighborCount Rows Columns g 0 0) ∧
    (∀ g2, WF Rows Columns g2 → ∀ p ∈ originNeighbors Rows Columns,
      isAlive g2 p.1 p.2 = !isAlive g p.1 p.2 →
      (∀ q ∈ originNeighbors Rows Columns, q ≠ p → isAlive g2 q.1 q.2 = isAlive g q.1 q.2) →
      ∃ n n2, getNeighborCount Rows Columns g 0 0 = some n ∧
        getNeighborCount Rows Columns g2 0 0 = some n2 ∧
        (if isAlive g p.1 p.2 = true then n = n2 + 1 else n2 = n + 1)) := by
  have hcount : ∀ g2, WF Rows Columns g2 → getNeighborCount Rows Columns g2 0 0 =
      some ((originNeighbors Rows Columns).countP (fun p => isAlive g2 p.1 p.2)) := by
    intro g2 h2
    have h := @getNeighborCount_eq Rows Columns g2 h2 0 0 (by decide) (by decide)
    rw [countLiveNeighbors_origin] at h
    exact h
  have hnd : (originNeighbors Rows Columns).Nodup := by decide
  refine ⟨hcount g hg, ⟨hnd, by decide, by decide⟩, ?_, ?_⟩
  · intro g2 h2 hagree
    rw [hcount g2 h2, hcount g hg]
    congr 1
    apply List.countP_congr
    intro p hp
    rw [hagree p hp]
  · intro g2 h2 p hp hflip hrest
    refine ⟨_, _, hcount g hg, hcount g2 h2, ?_⟩
    have key := countP_flip_one (originNeighbors Rows Columns) hnd
      (fun q => isAlive g q.1 q.2) (fun q => isAlive g2 q.1 q.2) p hp hflip hrest
    simp only at key
    cases ha : isAlive g p.1 p.2
    · simp only [ha, Bool.false_eq_true, if_false] at key ⊢
      omega
    · simp only [ha, if_true] at key ⊢
      omega

/-- Witness for C8: the all-ALIVE configured grid. -/
theorem getNeighborCount_origin_witness :
    getNeighborCount Rows Columns aliveGrid 0 0 =
      some ((originNeighbors Rows Columns).countP (fun p => isAlive aliveGrid p.1 p.2)) ∧
    ((originNeighbors Rows Columns).Nodup ∧ (originNeighbors Rows Columns).length = 8 ∧
      ((0 : Int), (0 : Int)) ∉ originNeighbors Rows Columns) ∧
    (∀ g2, WF Rows Columns g2 →
      (∀ p ∈ originNeighbors Rows Columns, isAlive g2 p.1 p.2 = isAlive aliveGrid p.1 p.2) →
      getNeighborCount Rows Columns g2 0 0 = getNeighborCount Rows Columns aliveGrid 0 0) ∧
    (∀ g2, WF Rows Columns g2 → ∀ p ∈ originNeighbors Rows Columns,
      isAlive g2 p.1 p.2 = !isAlive aliveGrid p.1 p.2 →
      (∀ q ∈ originNeighbors Rows Columns, q ≠ p →
        isAlive g2 q.1 q.2 = isAlive aliveGrid q.1 q.2) →
      ∃ n n2, getNeighborCount Rows Columns aliveGrid 0 0 = some n ∧
        getNeighborCount Rows Columns g2 0 0 = some n2 ∧
        (if isAlive aliveGrid p.1 p.2 = true then n = n2 + 1 else n2 = n + 1)) :=
  getNeighborCount_origin aliveGrid (WF_constGrid Rows Columns 1)

/-- C9: for every 20x100 current grid `g` and scratch grid `s`, `updateGrid`
returns, the resulting current grid and scratch grid are equal, and both are
the newly computed generation: a 20x100 grid whose cell `(r, c)` holds `1` when
the rule B3/S23 applied to the pre-call `g` makes it ALIVE and `0` otherwise. -/
theorem updateGrid_current_is_new_generation (g s : CellGrid) (hg : WF Rows Columns g)
    (hs : WF Rows Columns s) :
    ∃ g' s', updateGrid Rows Columns g s = some (g', s') ∧ g' = s' ∧
      g' = nextGeneration Rows Columns g ∧ WF Rows Columns g' ∧
      ∀ r c : Nat, r < Rows → c < Columns →
        readCell g' (r : Int) (c : Int) =
          some (if ruleB3S23 (isAlive g (r : Int) (c : Int))
            (countLiveNeighbors Rows Columns g (r : Int) (c : Int)) = true then 1 else 0) :=
  ⟨_, _, updateGrid_eq hg hs, rfl, rfl, WF_nextGeneration Rows Columns g,
    fun _ _ hr hc => readCell_nextGeneration Rows Columns g hr hc⟩

/-- Witness for C9: the all-ALIVE grid with an all-DEAD scratch grid. -/
theorem updateGrid_current_is_new_generation_witness :
    ∃ g' s', updateGrid Rows Columns aliveGrid deadGrid = some (g', s') ∧ g' = s' ∧
      g' = nextGeneration Rows Columns aliveGrid ∧ WF Rows Columns g' ∧
      ∀ r c : Nat, r < Rows → c < Columns →
        readCell g' (r : Int) (c : Int) =
          some (if ruleB3S23 (isAlive aliveGrid (r : Int) (c : Int))
            (countLiveNeighbors Rows Columns aliveGrid (r : Int) (c : Int)) = true
            then 1 else 0) :=
  updateGrid_current_is_new_generation aliveGrid deadGrid (WF_constGrid Rows Columns 1)
    (WF_constGrid Rows Columns 0)

/-- C10: for every content of the 20x100 global `Grid` and every argument,
`printGrid` returns and the emitted text is exactly `Rows` lines, each made of
exactly `Columns` characters drawn from `.` and `X` and followed by one
newline; nothing else is emitted, whatever bytes the cells hold. -/
theorem printGrid_shape (Grid grid : CellGrid) (h : WF Rows Columns Grid) :
    ∃ lines : List (List Char),
      printGrid Rows Columns Grid grid = some (lines.map (fun l => l ++ ['\n'])).flatten ∧
      lines.length = Rows ∧
      ∀ l ∈ lines, l.length = Columns ∧ ∀ ch ∈ l, ch = '.' ∨ ch = 'X' := by
  refine ⟨Grid.map (fun row => row.map cellChar), ?_, ?_, ?_⟩
  · rw [printGrid_eq h grid]
    simp [renderText, List.map_map, Function.comp_def]
  · simpa using h.1
  · intro l hl
    obtain ⟨row, hrow, rfl⟩ := List.mem_map.mp hl
    refine ⟨by simpa using h.2 row hrow, ?_⟩
    intro ch hch
    obtain ⟨v, _, rfl⟩ := List.mem_map.mp hch
    unfold cellChar
    by_cases hv : v = 0 <;> simp [hv]

/-- Witness for C10: a global grid whose cells hold the byte `7`, with an
all-DEAD argument. -/
theorem printGrid_shape_witness :
    ∃ lines : List (List Char),
      printGrid Rows Columns (constGrid Rows Columns 7) deadGrid =
        some (lines.map (fun l => l ++ ['\n'])).flatten ∧
      lines.length = Rows ∧
      ∀ l ∈ lines, l.length = Columns ∧ ∀ ch ∈ l, ch = '.' ∨ ch = 'X' :=
  printGrid_shape (constGrid Rows Columns 7) deadGrid (WF_constGrid Rows Columns 7)

/-- C11: on a torus with `nRows ≥ 3` rows and `nCols ≥ 3` columns, for every
anchor cell `(r, c)` and every scratch grid, the grid whose only ALIVE cells
are the 2x2 block `(r,c)`, `(r,c+1)`, `(r+1,c)`, `(r+1,c+1)` (indices wrapped)
is unchanged by one `updateGrid` step: it is a still life. -/
theorem block_is_still_life (nRows nCols : Nat) (hR : 3 ≤ nRows) (hC : 3 ≤ nCols)
    (r c : Nat) (hr : r < nRows) (hc : c < nCols) (s : CellGrid) (hs : WF nRows nCols s) :
    updateGrid nRows nCols (blockGrid nRows nCols r c) s =
      some (blockGrid nRows nCols r c, blockGrid nRows nCols r c) := by
  have h0 : WF nRows nCols (blockGrid nRows nCols r c) := WF_tabulate nRows nCols _
  rw [updateGrid_eq h0 hs, nextGeneration_blockGrid hR hC hr hc]

/-- Witness for C11: the block anchored at the corner `(2, 2)` of the 3x3
torus, which straddles both edges. -/
theorem block_is_still_life_witness :
    updateGrid 3 3 (blockGrid 3 3 2 2) (constGrid 3 3 0) =
      some (blockGrid 3 3 2 2, blockGrid 3 3 2 2) :=
  block_is_still_life 3 3 (by decide) (by decide) 2 2 (by decide) (by decide)
    (constGrid 3 3 0) (by decide)

/-- C12, as stated, fails: on the 5x5 torus the row of four live cells
`(2,0)`, `(2,1)`, `(2,2)`, `(2,3)` does not come back after two `updateGrid`
steps; the second generation is the six-cell beehive. -/
theorem rowOfFour_not_period_two :
    ∃ g1 g2, updateGrid 5 5 (rowOfFourGrid 5 5 2 0) (constGrid 5 5 0) = some (g1, g1) ∧
      updateGrid 5 5 g1 g1 = some (g2, g2) ∧
      g2 = [[0,0,0,0,0],[0,1,1,0,0],[1,0,0,1,0],[0,1,1,0,0],[0,0,0,0,0]] ∧
      g2 ≠ rowOfFourGrid 5 5 2 0 := by
  have h0 : WF 5 5 (rowOfFourGrid 5 5 2 0) := WF_tabulate 5 5 _
  refine ⟨_, _, updateGrid_eq h0 (WF_constGrid 5 5 0),
    updateGrid_eq (WF_nextGeneration 5 5 _) (WF_nextGeneration 5 5 _), by decide,
    (rowOfFour_evolution 2 0 (by decide) (by decide)).2.1⟩

/-- C12, amended: on the 5x5 torus, for every position of a row of four
consecutive live cells and every scratch grid, two successive `updateGrid`
steps return; neither the first nor the second generation is the original
grid, and the second generation is left unchanged by a further step. -/
theorem rowOfFour_settles (r c : Nat) (hr : r < 5) (hc : c < 5) (s : CellGrid)
    (hs : WF 5 5 s) :
    ∃ g1 g2, updateGrid 5 5 (rowOfFourGrid 5 5 r c) s = some (g1, g1) ∧
      updateGrid 5 5 g1 g1 = some (g2, g2) ∧
      g1 ≠ rowOfFourGrid 5 5 r c ∧ g2 ≠ rowOfFourGrid 5 5 r c ∧
      updateGrid 5 5 g2 g2 = some (g2, g2) := by
  have h0 : WF 5 5 (rowOfFourGrid 5 5 r c) := WF_tabulate 5 5 _
  obtain ⟨e1, e2, e3⟩ := rowOfFour_evolution r c hr hc
  refine ⟨_, _, updateGrid_eq h0 hs,
    updateGrid_eq (WF_nextGeneration 5 5 _) (WF_nextGeneration 5 5 _), e1, e2, ?_⟩
  rw [updateGrid_eq (WF_nextGeneration 5 5 _) (WF_nextGeneration 5 5 _), e3]

/-- Witness for C12 amended: the row starting at `(4, 3)`, which wraps around
the right edge. -/
theorem rowOfFour_settles_witness :
    ∃ g1 g2, updateGrid 5 5 (rowOfFourGrid 5 5 4 3) (constGrid 5 5 1) = some (g1, g1) ∧
      updateGrid 5 5 g1 g1 = some (g2, g2) ∧
      g1 ≠ rowOfFourGrid 5 5 4 3 ∧ g2 ≠ rowOfFourGrid 5 5 4 3 ∧
      updateGrid 5 5 g2 g2 = some (g2, g2) :=
  rowOfFour_settles 4 3 (by decide) (by decide) (constGrid 5 5 1) (by decide)

/-- C13: on a torus with `nRows ≥ 3` rows and `nCols ≥ 3` columns, for every
cell `(r, c)` and every scratch grid, the grid whose only ALIVE cell is
`(r, c)` becomes the all-DEAD grid after one `updateGrid` step. -/
theorem single_cell_dies (nRows nCols : Nat) (hR : 3 ≤ nRows) (hC : 3 ≤ nCols)
    (r c : Nat) (hr : r < nRows) (hc : c < nCols) (s : CellGrid) (hs : WF nRows nCols s) :
    isAlive (singleCellGrid nRows nCols r c) (r : Int) (c : Int) = true ∧
    updateGrid nRows nCols (singleCellGrid nRows nCols r c) s =
      some (constGrid nRows nCols 0, constGrid nRows nCols 0) := by
  refine ⟨?_, ?_⟩
  · unfold singleCellGrid
    rw [isAlive_productGrid nRows nCols _ _ hr hc]
    simp
  · have h0 : WF nRows nCols (singleCellGrid nRows nCols r c) := WF_tabulate nRows nCols _
    rw [updateGrid_eq h0 hs, nextGeneration_singleCellGrid hR hC r c]

/-- Witness for C13: the centre cell of the 3x3 torus. -/
theorem single_cell_dies_witness :
    isAlive (singleCellGrid 3 3 1 1) ((1 : Nat) : Int) ((1 : Nat) : Int) = true ∧
    updateGrid 3 3 (singleCellGrid 3 3 1 1) (constGrid 3 3 1) =
      some (constGrid 3 3 0, constGrid 3 3 0) :=
  single_cell_dies 3 3 (by decide) (by decide) 1 1 (by decide) (by decide)
    (constGrid 3 3 1) (by decide)

/-- C14: for every sequence of values of the pseudo-random source and every
prior content of the 20x100 grid, `initGrid` with the threshold `0` in the test
`(rand() % 100) < p` returns the all-DEAD grid, and with the threshold `100` it
returns the all-ALIVE grid. -/
theorem initGrid_extreme_thresholds (rand : Nat → Nat) (calls : Nat) (grid : CellGrid)
    (h : WF Rows Columns grid) :
    initGrid Rows Columns 0 rand calls grid = some (deadGrid, calls + Rows * Columns) ∧
    initGrid Rows Columns 100 rand calls grid = some (aliveGrid, calls + Rows * Columns) := by
  have e0 : deadGrid = tabulate Rows Columns (fun _ _ => 0) := constGrid_eq_tabulate Rows Columns 0
  have e1 : aliveGrid = tabulate Rows Columns (fun _ _ => 1) := constGrid_eq_tabulate Rows Columns 1
  have t0 : tabulate Rows Columns
      (fun r c => if rand (calls + r * Columns + c) % 100 < 0 then 1 else 0) =
      tabulate Rows Columns (fun _ _ => 0) :=
    tabulate_congr Rows Columns (fun _ _ _ _ => if_neg (Nat.not_lt_zero _))
  have t1 : tabulate Rows Columns
      (fun r c => if rand (calls + r * Columns + c) % 100 < 100 then 1 else 0) =
      tabulate Rows Columns (fun _ _ => 1) :=
    tabulate_congr Rows Columns (fun _ _ _ _ => if_pos (Nat.mod_lt _ (by decide)))
  refine ⟨?_, ?_⟩
  · rw [initGrid_eq 0 rand calls h, e0, t0]
  · rw [initGrid_eq 100 rand calls h, e1, t1]

/-- Witness for C14: the source returning `7919 * k + 13` at its `k`-th call,
on the grid whose only ALIVE cell is `(10, 50)`. -/
theorem initGrid_extreme_thresholds_witness :
    initGrid Rows Columns 0 (fun k => 7919 * k + 13) 0 farCellGrid =
      some (deadGrid, 0 + Rows * Columns) ∧
    initGrid Rows Columns 100 (fun k => 7919 * k + 13) 0 farCellGrid =
      some (aliveGrid, 0 + Rows * Columns) :=
  initGrid_extreme_thresholds (fun k => 7919 * k + 13) 0 farCellGrid (by decide)

/-- C15: a `printGrid` call, on either global vector, returns and changes
neither `Grid` nor `NewGrid` (nor the state of the random source); it only
appends its text to the output, so two successive calls with no call in
between append the same text. -/
theorem printGrid_leaves_grids (rand : Nat → Nat) (m : Machine) (h : WF Rows Columns m.Grid)
    (arg1 arg2 : Bool) :
    ∃ text m1 m2, m.call rand (Call.printGrid arg1) = some m1 ∧
      m1.call rand (Call.printGrid arg2) = some m2 ∧
      (m1.Grid = m.Grid ∧ m1.NewGrid = m.NewGrid ∧ m1.randCalls = m.randCalls) ∧
      (m2.Grid = m.Grid ∧ m2.NewGrid = m.NewGrid ∧ m2.randCalls = m.randCalls) ∧
      m1.stdout = m.stdout ++ text ∧ m2.stdout = m1.stdout ++ text := by
  exact ⟨renderText m.Grid, _, _, call_printGrid rand m h arg1,
    call_printGrid rand { m with stdout := m.stdout ++ renderText m.Grid } h arg2,
    ⟨rfl, rfl, rfl⟩, ⟨rfl, rfl, rfl⟩, rfl, rfl⟩

/-- Witness for C15: the state with `Grid` holding one live cell, `NewGrid`
all ALIVE and some text already written; two calls `printGrid(Grid)`. -/
theorem printGrid_leaves_grids_witness :
    ∃ text m1 m2,
      (Machine.mk farCellGrid aliveGrid 5 ['a']).call (fun k => k) (Call.printGrid false) =
        some m1 ∧
      m1.call (fun k => k) (Call.printGrid false) = some m2 ∧
      (m1.Grid = (Machine.mk farCellGrid aliveGrid 5 ['a']).Grid ∧
        m1.NewGrid = (Machine.mk farCellGrid aliveGrid 5 ['a']).NewGrid ∧
        m1.randCalls = (Machine.mk farCellGrid aliveGrid 5 ['a']).randCalls) ∧
      (m2.Grid = (Machine.mk farCellGrid aliveGrid 5 ['a']).Grid ∧
        m2.NewGrid = (Machine.mk farCellGrid aliveGrid 5 ['a']).NewGrid ∧
        m2.randCalls = (Machine.mk farCellGrid aliveGrid 5 ['a']).randCalls) ∧
      m1.stdout = (Machine.mk farCellGrid aliveGrid 5 ['a']).stdout ++ text ∧
      m2.stdout = m1.stdout ++ text :=
  printGrid_leaves_grids (fun k => k) (Machine.mk farCellGrid aliveGrid 5 ['a']) (by decide)
    false false

/-- C16: when `Grid` and `NewGrid` each have exactly 20 rows of exactly 100
cells, every sequence of `initGrid`, `updateGrid` and `printGrid` calls
returns (no index it uses is out of range), both vectors still have exactly
20 rows of exactly 100 cells afterwards, and `getNeighborCount` returns on
them for every in-range row and column. -/
theorem dimensions_invariant (rand : Nat → Nat) (m : Machine) (hG : WF Rows Columns m.Grid)
    (hN : WF Rows Columns m.NewGrid) (calls : List Call) :
    ∃ m2, m.run rand calls = some m2 ∧
      (m2.Grid.length = Rows ∧ ∀ row ∈ m2.Grid, row.length = Columns) ∧
      (m2.NewGrid.length = Rows ∧ ∀ row ∈ m2.NewGrid, row.length = Columns) ∧
      ∀ r c : Nat, r < Rows → c < Columns →
        (getNeighborCount Rows Columns m2.Grid (r : Int) (c : Int)).isSome = true ∧
        (getNeighborCount Rows Columns m2.NewGrid (r : Int) (c : Int)).isSome = true := by
  obtain ⟨m2, hrun, hG2, hN2⟩ := run_preserves_WF rand calls m hG hN
  refine ⟨m2, hrun, hG2, hN2, ?_⟩
  intro r c hr hc
  rw [getNeighborCount_eq hG2 hr hc, getNeighborCount_eq hN2 hr hc]
  exact ⟨rfl, rfl⟩

/-- Witness for C16: the program's start state and the calls `initGrid(Grid)`,
`printGrid(Grid)`, `updateGrid(Grid, NewGrid)`, `printGrid(Grid)`. -/
theorem dimensions_invariant_witness :
    ∃ m2, (Machine.mk deadGrid deadGrid 0 []).run (fun k => 7919 * k + 13)
        [Call.initGrid false, Call.printGrid false, Call.updateGrid false, Call.printGrid false] = some m2 ∧
      (m2.Grid.length = Rows ∧ ∀ row ∈ m2.Grid, row.length = Columns) ∧
      (m2.NewGrid.length = Rows ∧ ∀ row ∈ m2.NewGrid, row.length = Columns) ∧
      ∀ r c : Nat, r < Rows → c < Columns →
        (getNeighborCount Rows Columns m2.Grid (r : Int) (c : Int)).isSome = true ∧
        (getNeighborCount Rows Columns m2.NewGrid (r : Int) (c : Int)).isSome = true :=
  dimensions_invariant (fun k => 7919 * k + 13) (Machine.mk deadGrid deadGrid 0 [])
    (WF_constGrid Rows Columns 0) (WF_constGrid Rows Columns 0)
    [Call.initGrid false, Call.printGrid false, Call.updateGrid false, Call.printGrid false]

/-- C17: for `n` equal to `Rows` or `Columns`, every index `0 ≤ x < n` and
every offset `d` in `{-1, 0, 1}`, the wrap expression of the code
`(x + d + n) % n` (truncating `%`) equals the normalisation of the
specification `((i % n) + n) % n` at `i = x + d`, and both equal the floor
residue of `x + d` modulo `n`; `x = 0`, `d = -1` gives `n - 1` and `x = n - 1`,
`d = 1` gives `0`. -/
theorem wrap_refines_spec (n : Nat) (hn : n = Rows ∨ n = Columns) (x : Nat) (hx : x < n)
    (d : Int) (hd1 : -1 ≤ d) (hd2 : d ≤ 1) :
    destRow n (x : Int) d = specWrap n ((x : Int) + d) ∧
    destColumn n (x : Int) d = specWrap n ((x : Int) + d) ∧
    specWrap n ((x : Int) + d) = Int.fmod ((x : Int) + d) (n : Int) ∧
    specWrap n ((x : Int) + d) = ((x : Int) + d) % (n : Int) ∧
    destRow n 0 (-1) = (n : Int) - 1 ∧ destColumn n 0 (-1) = (n : Int) - 1 ∧
    destRow n ((n : Int) - 1) 1 = 0 ∧ destColumn n ((n : Int) - 1) 1 = 0 := by
  have htwo : 2 ≤ n := by
    rcases hn with e | e <;> subst e <;> decide
  have hpos : 0 < n := by omega
  have hrow : ∀ y e : Int, destRow n y e = destColumn n y e := fun _ _ => rfl
  have hcode : ∀ y e : Int, 0 ≤ y + e + (n : Int) →
      destRow n y e = (y + e) % (n : Int) := fun y e h => destRow_eq_emod h
  have hspec : specWrap n ((x : Int) + d) = ((x : Int) + d) % (n : Int) :=
    specWrap_eq_emod hpos (by omega)
  refine ⟨?_, ?_, ?_, hspec, ?_, ?_, ?_, ?_⟩
  · rw [hspec]; exact hcode _ _ (by omega)
  · rw [hspec, ← hrow]; exact hcode _ _ (by omega)
  · rw [hspec, Int.fmod_eq_emod _ (Int.ofNat_nonneg n)]
  · rcases hn with e | e <;> subst e <;> decide
  · rcases hn with e | e <;> subst e <;> decide
  · rcases hn with e | e <;> subst e <;> decide
  · rcases hn with e | e <;> subst e <;> decide

/-- Witness for C17: the last column with the offset `1`. -/
theorem wrap_refines_spec_witness :
    destRow Columns ((99 : Nat) : Int) 1 = specWrap Columns (((99 : Nat) : Int) + 1) ∧
    destColumn Columns ((99 : Nat) : Int) 1 = specWrap Columns (((99 : Nat) : Int) + 1) ∧
    specWrap Columns (((99 : Nat) : Int) + 1) =
      Int.fmod (((99 : Nat) : Int) + 1) (Columns : Int) ∧
    specWrap Columns (((99 : Nat) : Int) + 1) = (((99 : Nat) : Int) + 1) % (Columns : Int) ∧
    destRow Columns 0 (-1) = (Columns : Int) - 1 ∧
    destColumn Columns 0 (-1) = (Columns : Int) - 1 ∧
    destRow Columns ((Columns : Int) - 1) 1 = 0 ∧
    destColumn Columns ((Columns : Int) - 1) 1 = 0 :=
  wrap_refines_spec Columns (Or.inr rfl) 99 (by decide) 1 (by decide) (by decide)

/-- C18: `updateGrid` commutes with translation on the torus: for every 20x100
grid `g`, every shift `(a, b)` and all scratch grids, the generation computed
from the shifted grid is the shift of the generation computed from `g`. -/
theorem updateGrid_commutes_with_shift (g s s2 : CellGrid) (a b : Int)
    (hg : WF Rows Columns g) (hs : WF Rows Columns s) (hs2 : WF Rows Columns s2) :
    ∃ g', updateGrid Rows Columns g s = some (g', g') ∧
      updateGrid Rows Columns (shiftGrid Rows Columns a b g) s2 =
        some (shiftGrid Rows Columns a b g', shiftGrid Rows Columns a b g') ∧
      ∀ r c : Nat, r < Rows → c < Columns →
        readCell (shiftGrid Rows Columns a b g) (r : Int) (c : Int) =
          readCell g (((r : Int) + a) % (Rows : Int)) (((c : Int) + b) % (Columns : Int)) := by
  refine ⟨_, updateGrid_eq hg hs, ?_, ?_⟩
  · have hsh : WF Rows Columns (shiftGrid Rows Columns a b g) := WF_tabulate Rows Columns _
    rw [updateGrid_eq hsh hs2, nextGeneration_shiftGrid hg a b]
  · intro r c hr hc
    obtain ⟨i, hi, hie⟩ := emod_index (by decide : 0 < Rows) ((r : Int) + a)
    obtain ⟨j, hj, hje⟩ := emod_index (by decide : 0 < Columns) ((c : Int) + b)
    obtain ⟨v, hv⟩ := readCell_isSome_of_WF hg hi hj
    unfold shiftGrid
    rw [readCell_tabulate Rows Columns _ hr hc, hie, hje, hv]
    rfl

/-- Witness for C18: the grid with one live cell, shifted by `(-3, 250)`. -/
theorem updateGrid_commutes_with_shift_witness :
    ∃ g', updateGrid Rows Columns farCellGrid deadGrid = some (g', g') ∧
      updateGrid Rows Columns (shiftGrid Rows Columns (-3) 250 farCellGrid) aliveGrid =
        some (shiftGrid Rows Columns (-3) 250 g', shiftGrid Rows Columns (-3) 250 g') ∧
      ∀ r c : Nat, r < Rows → c < Columns →
        readCell (shiftGrid Rows Columns (-3) 250 farCellGrid) (r : Int) (c : Int) =
          readCell farCellGrid (((r : Int) + (-3)) % (Rows : Int))
            (((c : Int) + 250) % (Columns : Int)) :=
  updateGrid_commutes_with_shift farCellGrid deadGrid aliveGrid (-3) 250 (by decide)
    (by decide) (by decide)

/-- C19: for every 20x100 grid of arbitrary bytes, `updateGrid` returns grids
whose cells are all exactly `0` or `1`, and they are the grids it returns on
the grid with every nonzero byte replaced by `1`; and for every random
sequence every cell after `initGrid` is exactly `0` or `1`. -/
theorem cells_are_normalised (g s s2 grid : CellGrid) (rand : Nat → Nat) (calls : Nat)
    (hg : WF Rows Columns g) (hs : WF Rows Columns s) (hs2 : WF Rows Columns s2)
    (hgrid : WF Rows Columns grid) :
    (∃ g' s', updateGrid Rows Columns g s = some (g', s') ∧ Binary g' ∧ Binary s' ∧
      updateGrid Rows Columns (normalize g) s2 = some (g', s')) ∧
    (∃ gi k, initGrid Rows Columns aliveThreshold rand calls grid = some (gi, k) ∧
      Binary gi) := by
  refine ⟨⟨_, _, updateGrid_eq hg hs, Binary_nextGeneration Rows Columns g,
    Binary_nextGeneration Rows Columns g, ?_⟩,
    ⟨_, _, initGrid_eq aliveThreshold rand calls hgrid, ?_⟩⟩
  · rw [updateGrid_eq (WF_normalize hg) hs2, nextGeneration_normalize]
  · apply Binary_tabulate
    intro r c
    split
    · exact Or.inr rfl
    · exact Or.inl rfl

/-- Witness for C19: a grid whose cells all hold the byte `255`. -/
theorem cells_are_normalised_witness :
    (∃ g' s', updateGrid Rows Columns (constGrid Rows Columns 255) deadGrid = some (g', s') ∧
      Binary g' ∧ Binary s' ∧
      updateGrid Rows Columns (normalize (constGrid Rows Columns 255)) aliveGrid =
        some (g', s')) ∧
    (∃ gi k, initGrid Rows Columns aliveThreshold (fun k => 7919 * k + 13) 0
        (constGrid Rows Columns 255) = some (gi, k) ∧
      Binary gi) :=
  cells_are_normalised (constGrid Rows Columns 255) deadGrid aliveGrid
    (constGrid Rows Columns 255) (fun k => 7919 * k + 13) 0 (WF_constGrid Rows Columns 255)
    (WF_constGrid Rows Columns 0) (WF_constGrid Rows Columns 1) (WF_constGrid Rows Columns 255)

end GameOfLife
